import Mathlib

/-!
Verification of the AstroBox-NG module core wire stack against its
specification.  The Rust sources under `src/device/xiaomi/...` are embedded
shallowly: byte buffers become `List ℕ` (each entry a byte value `< 256`),
machine integers become `ℕ` with explicit `% 2^w` at the points where the
source relies on wrapping, and fallible functions return `Except`/`Option`.

Layout:
  * L1 framing codec (`packet/v2/layer1.rs`)
  * L2 codec and ciphers (`packet/v2/layer2.rs`, `packet/cipher.rs`),
    with AES-128-CTR modelled from the spec (the crypto primitives are
    external collaborators, not part of the sources)
  * SHA-256 / HMAC (spec-modelled) and the miwear KDF (`components/auth.rs`)
  * SAR controller state machine (`sar/mod.rs`, `sar/command_pool.rs`)
  * MASS fragment sizing including an IEEE-754 binary32 model for the
    `total_parts` computation (`components/mass.rs`)
  * DHCP responder reply building (`components/network/native/dhcp.rs`)
  * the theorems settling the claims.
-/

namespace AstroCore

/-! ## L1 framing codec — `src/device/xiaomi/packet/v2/layer1.rs` -/

/-- Frame classifier `L1DataType`, stored in bits 0..3 of the type byte. -/
inductive L1DataType where
  | nak
  | ack
  | cmd
  | data
deriving DecidableEq, Repr

/-- The numeric value of each `L1DataType` (`Nak = 0, Ack = 1, Cmd = 2, Data = 3`). -/
def L1DataType.toNat : L1DataType → ℕ
  | .nak => 0
  | .ack => 1
  | .cmd => 2
  | .data => 3

/-- Decode failures of `L1Packet::from_bytes` (`L1Error`). -/
inductive L1Error where
  | tooShort
  | badMagic (found : ℕ)
  | invalidType (t : ℕ)
  | lengthMismatch (declared actual : ℕ)
  | crcMismatch (declared computed : ℕ)
deriving DecidableEq, Repr

/-- Conversion `TryFrom<u8> for L1DataType`. -/
def L1DataType.tryFrom (v : ℕ) : Except L1Error L1DataType :=
  match v with
  | 0 => .ok .nak
  | 1 => .ok .ack
  | 2 => .ok .cmd
  | 3 => .ok .data
  | _ => .error (.invalidType v)

/-- Parsed representation of one L1 frame (`L1Packet`). -/
structure L1Packet where
  pkt_type : L1DataType
  frx : Bool
  seq : ℕ
  length : ℕ
  crc : ℕ
  payload : List ℕ
deriving DecidableEq, Repr

/-- One shift-and-conditional-xor round of CRC-16/ARC (`poly 0xA001`). -/
def crc16Round (crc : ℕ) : ℕ :=
  if crc &&& 1 ≠ 0 then (crc >>> 1) ^^^ 0xA001 else crc >>> 1

/-- Mixing one input byte into the running CRC: xor, then 8 rounds. -/
def crc16Step (crc byte : ℕ) : ℕ :=
  (crc16Round ∘ crc16Round ∘ crc16Round ∘ crc16Round ∘
   crc16Round ∘ crc16Round ∘ crc16Round ∘ crc16Round) (crc ^^^ byte)

/-- Function `L1Packet::crc16_arc`: CRC-16/ARC over a byte sequence, init 0. -/
def crc16_arc (data : List ℕ) : ℕ :=
  data.foldl crc16Step 0

/-- Function `L1Packet::pack_type_frx`: low nibble is the type, bit 4 the frx flag. -/
def pack_type_frx (t : L1DataType) (frx : Bool) : ℕ :=
  (t.toNat &&& 0x0F) ||| (if frx then 0x10 else 0)

/-- Function `L1Packet::unpack_type_frx`. -/
def unpack_type_frx (b : ℕ) : Except L1Error (L1DataType × Bool) :=
  (L1DataType.tryFrom (b &&& 0x0F)).map (fun ty => (ty, b &&& 0x10 ≠ 0))

/-- Constructor `L1Packet::new`: length is `payload.len() as u16`, CRC computed
at build time over the payload. -/
def L1Packet.new (t : L1DataType) (frx : Bool) (seq : ℕ) (payload : List ℕ) :
    L1Packet :=
  { pkt_type := t
    frx := frx
    seq := seq
    length := payload.length % 65536
    crc := crc16_arc payload
    payload := payload }

/-- Little-endian 16-bit serialization (`u16::to_le_bytes`). -/
def le16 (n : ℕ) : List ℕ := [n % 256, n / 256 % 256]

/-- Little-endian 16-bit read (`u16::from_le_bytes`). -/
def rd16 (lo hi : ℕ) : ℕ := lo + 256 * hi

/-- Function `L1Packet::to_bytes`: magic, type|frx byte, seq, LE length, LE crc, payload. -/
def L1Packet.to_bytes (p : L1Packet) : List ℕ :=
  [0xA5, 0xA5] ++ [pack_type_frx p.pkt_type p.frx] ++ [p.seq] ++
    le16 p.length ++ le16 p.crc ++ p.payload

/-- Function `L1Packet::from_bytes`.  A buffer shorter than the 8-byte header is
`TooShort`; the magic, the type byte, the declared length (the buffer must
hold at least `8 + length` bytes) and the CRC are then checked in order. -/
def L1Packet.from_bytes (buf : List ℕ) : Except L1Error L1Packet :=
  match buf with
  | b0 :: b1 :: b2 :: b3 :: b4 :: b5 :: b6 :: b7 :: rest =>
    let magic := rd16 b0 b1
    if magic ≠ 0xA5A5 then .error (.badMagic magic)
    else
      match unpack_type_frx b2 with
      | .error e => .error e
      | .ok (ty, frx) =>
        let length := rd16 b4 b5
        let declared_crc := rd16 b6 b7
        if rest.length < length then
          .error (.lengthMismatch length rest.length)
        else
          let payload := rest.take length
          let computed := crc16_arc payload
          if declared_crc ≠ computed then
            .error (.crcMismatch declared_crc computed)
          else
            .ok { pkt_type := ty, frx := frx, seq := b3, length := length,
                  crc := declared_crc, payload := payload }
  | _ => .error .tooShort

/-! ## Supporting lemmas for the L1 codec -/

theorem rd16_le16 (n : ℕ) : rd16 (n % 256) (n / 256 % 256) = n % 65536 := by
  unfold rd16
  omega

theorem crc16Round_lt {crc : ℕ} (h : crc < 65536) : crc16Round crc < 65536 := by
  unfold crc16Round
  have h1 : crc >>> 1 < 65536 := by
    simp only [Nat.shiftRight_one]
    omega
  split
  · exact Nat.xor_lt_two_pow (n := 16) h1 (by norm_num)
  · exact h1

theorem crc16Step_lt {crc byte : ℕ} (hc : crc < 65536) (hb : byte < 256) :
    crc16Step crc byte < 65536 := by
  have h0 : crc ^^^ byte < 65536 :=
    Nat.xor_lt_two_pow (n := 16) hc (lt_trans hb (by norm_num))
  unfold crc16Step
  simp only [Function.comp_apply]
  exact crc16Round_lt (crc16Round_lt (crc16Round_lt (crc16Round_lt
    (crc16Round_lt (crc16Round_lt (crc16Round_lt (crc16Round_lt h0)))))))

theorem crc16_foldl_lt (data : List ℕ) (hb : ∀ b ∈ data, b < 256) :
    ∀ acc, acc < 65536 → data.foldl crc16Step acc < 65536 := by
  induction data with
  | nil => intro acc h; simpa using h
  | cons x xs ih =>
    intro acc h
    simp only [List.foldl_cons]
    exact ih (fun b hbmem => hb b (List.mem_cons_of_mem x hbmem))
      _ (crc16Step_lt h (hb x (List.mem_cons_self x xs)))

theorem crc16_arc_lt (data : List ℕ) (hb : ∀ b ∈ data, b < 256) :
    crc16_arc data < 65536 :=
  crc16_foldl_lt data hb 0 (by norm_num)

theorem unpack_pack (t : L1DataType) (frx : Bool) :
    unpack_type_frx (pack_type_frx t frx) = .ok (t, frx) := by
  cases t <;> cases frx <;> rfl

/--
Claim C1: For every L1 frame built by `L1Packet::new` (payload length fitting
in 16 bits, byte-valued payload and sequence), `from_bytes ∘ to_bytes` is the
identity: decoding the encoded bytes succeeds and returns a frame equal to
the original in type, frx flag, sequence, length, CRC and payload.
-/
theorem c1_l1_encode_decode_roundtrip (t : L1DataType) (frx : Bool)
    (seq : ℕ) (payload : List ℕ)
    (hlen : payload.length < 65536) (_hseq : seq < 256)
    (hbytes : ∀ b ∈ payload, b < 256) :
    L1Packet.from_bytes (L1Packet.new t frx seq payload).to_bytes =
      .ok (L1Packet.new t frx seq payload) := by
  have hmod : payload.length % 65536 = payload.length := Nat.mod_eq_of_lt hlen
  have hcrc : crc16_arc payload < 65536 := crc16_arc_lt payload hbytes
  have hbytes_eq : (L1Packet.new t frx seq payload).to_bytes =
      0xA5 :: 0xA5 :: pack_type_frx t frx :: seq ::
      (payload.length % 65536) % 256 :: ((payload.length % 65536) / 256 % 256) ::
      (crc16_arc payload % 256) :: (crc16_arc payload / 256 % 256) :: payload := by
    simp [L1Packet.to_bytes, L1Packet.new, le16]
  rw [hbytes_eq]
  simp only [L1Packet.from_bytes]
  rw [unpack_pack]
  have hlen16 : rd16 ((payload.length % 65536) % 256)
      ((payload.length % 65536) / 256 % 256) = payload.length := by
    rw [rd16_le16]; omega
  have hcrc16 : rd16 (crc16_arc payload % 256) (crc16_arc payload / 256 % 256) =
      crc16_arc payload := by
    rw [rd16_le16]; omega
  simp only [hlen16, hcrc16]
  have hmagic : rd16 0xA5 0xA5 = 0xA5A5 := by decide
  rw [if_neg (by simp [hmagic])]
  rw [if_neg (by simp)]
  rw [if_neg (by simp [List.take_length])]
  simp [L1Packet.new, List.take_length, hmod]

/-- Witness for C1: the roundtrip at the concrete frame
`DATA, frx = false, seq = 7, payload = [1, 2, 3]`. -/
theorem c1_witness :
    L1Packet.from_bytes (L1Packet.new .data false 7 [1, 2, 3]).to_bytes =
      .ok (L1Packet.new .data false 7 [1, 2, 3]) :=
  c1_l1_encode_decode_roundtrip .data false 7 [1, 2, 3]
    (by decide) (by decide) (by decide)

/--
Counterexample to **C9** as stated: the 9-byte buffer below declares a
payload length of 0 but carries one surplus byte after the 8-byte header;
`from_bytes` nevertheless succeeds (returning the ACK frame with empty
payload) instead of rejecting with `LengthMismatch`.
-/
theorem c9_counterexample :
    L1Packet.from_bytes [0xA5, 0xA5, 1, 0, 0, 0, 0, 0, 99] =
      .ok { pkt_type := .ack, frx := false, seq := 0, length := 0, crc := 0,
            payload := [] } ∧
    ([0xA5, 0xA5, 1, 0, 0, 0, 0, 0, 99] : List ℕ).length ≠ 8 + 0 := by
  constructor
  · rfl
  · decide

/--
Claim C9 (amended): For a buffer with a valid magic and type byte, decoding is
rejected with `LengthMismatch` exactly when the buffer holds fewer payload
bytes than the declared 16-bit length; on success the returned payload has
exactly the declared length (surplus trailing bytes are ignored, not
rejected).
-/
theorem c9_amended_length_check (b0 b1 b2 b3 b4 b5 b6 b7 : ℕ) (rest : List ℕ)
    (hmagic : rd16 b0 b1 = 0xA5A5)
    (hty : (unpack_type_frx b2).isOk = true) :
    (rest.length < rd16 b4 b5 →
      L1Packet.from_bytes (b0 :: b1 :: b2 :: b3 :: b4 :: b5 :: b6 :: b7 :: rest) =
        .error (.lengthMismatch (rd16 b4 b5) rest.length)) ∧
    (∀ f, L1Packet.from_bytes
        (b0 :: b1 :: b2 :: b3 :: b4 :: b5 :: b6 :: b7 :: rest) = .ok f →
      f.payload.length = rd16 b4 b5 ∧ rd16 b4 b5 ≤ rest.length) := by
  obtain ⟨ty, frx, hu⟩ : ∃ ty frx, unpack_type_frx b2 = .ok (ty, frx) := by
    cases h : unpack_type_frx b2 with
    | error e => rw [h] at hty; simp [Except.isOk, Except.toBool] at hty
    | ok p => obtain ⟨ty, frx⟩ := p; exact ⟨ty, frx, rfl⟩
  simp only [L1Packet.from_bytes, hmagic, hu]
  rw [if_neg (by simp)]
  constructor
  · intro hshort
    rw [if_pos hshort]
  · intro f hok
    by_cases hshort : rest.length < rd16 b4 b5
    · rw [if_pos hshort] at hok
      exact absurd hok (by simp)
    · rw [if_neg hshort] at hok
      split at hok
      · exact absurd hok (by simp)
      · have hf : f.payload = rest.take (rd16 b4 b5) := by
          cases hok.symm
          rfl
        constructor
        · rw [hf, List.length_take]
          omega
        · omega

/-- Witness for the amended C9 theorem: a valid header declaring 5 payload
bytes over a 2-byte body is rejected with `LengthMismatch 5 2`. -/
theorem c9_amended_witness :
    L1Packet.from_bytes [0xA5, 0xA5, 3, 0, 5, 0, 0, 0, 1, 2] =
      .error (.lengthMismatch 5 2) :=
  (c9_amended_length_check 0xA5 0xA5 3 0 5 0 0 0 [1, 2]
    (by decide) (by decide)).1 (by decide)

/-! ## L2 codec — `src/device/xiaomi/packet/v2/layer2.rs` -/

/-- Logical channels carried by L2 (`L2Channel`). -/
inductive L2Channel where
  | pb
  | mass
  | massVoice
  | fileSensor
  | fileFitness
  | ota
  | network
  | lyra
  | research
deriving DecidableEq, Repr

/-- Numeric channel ids (`PB = 1 … RESEARCH = 9`). -/
def L2Channel.toNat : L2Channel → ℕ
  | .pb => 1
  | .mass => 2
  | .massVoice => 3
  | .fileSensor => 4
  | .fileFitness => 5
  | .ota => 6
  | .network => 7
  | .lyra => 8
  | .research => 9

/-- Decode failures of the L2 codec (`L2Error`). -/
inductive L2Error where
  | tooShort
  | invalidChannel (ch : ℕ)
  | invalidOpCode (op : ℕ)
  | lengthMismatch (expected actual : ℕ)
  | decryptFailed
deriving DecidableEq, Repr

/-- Conversion `TryFrom<u8> for L2Channel`. -/
def L2Channel.tryFrom (v : ℕ) : Except L2Error L2Channel :=
  match v with
  | 1 => .ok .pb
  | 2 => .ok .mass
  | 3 => .ok .massVoice
  | 4 => .ok .fileSensor
  | 5 => .ok .fileFitness
  | 6 => .ok .ota
  | 7 => .ok .network
  | 8 => .ok .lyra
  | 9 => .ok .research
  | _ => .error (.invalidChannel v)

/-- L2 opcodes (`WRITE = 1, WRITE_ENC = 2, READ = 3`). -/
inductive L2OpCode where
  | write
  | writeEnc
  | read
deriving DecidableEq, Repr

/-- Numeric opcode values. -/
def L2OpCode.toNat : L2OpCode → ℕ
  | .write => 1
  | .writeEnc => 2
  | .read => 3

/-- Conversion `TryFrom<u8> for L2OpCode`. -/
def L2OpCode.tryFrom (v : ℕ) : Except L2Error L2OpCode :=
  match v with
  | 1 => .ok .write
  | 2 => .ok .writeEnc
  | 3 => .ok .read
  | _ => .error (.invalidOpCode v)

/-- Parsed L2 packet: channel, opcode, payload. -/
structure L2Packet where
  channel : L2Channel
  opcode : L2OpCode
  payload : List ℕ
deriving DecidableEq, Repr

/-- Capability interface `L2Cipher` (`encrypt`/`decrypt`, each fallible). -/
structure L2CipherM where
  encrypt : List ℕ → Except Unit (List ℕ)
  decrypt : List ℕ → Except Unit (List ℕ)

/-- Function `L2Packet::to_bytes`: `1B channel | 1B opcode | payload`. -/
def L2Packet.to_bytes (p : L2Packet) : List ℕ :=
  p.channel.toNat :: p.opcode.toNat :: p.payload

/-- Function `L2Packet::from_bytes` with optional decryption: when the opcode
is `WriteEnc` and a cipher is supplied the payload is decrypted, otherwise
the (possibly ciphertext) body is kept verbatim. -/
def L2Packet.from_bytes (buf : List ℕ) (cipher : Option L2CipherM) :
    Except L2Error L2Packet :=
  match buf with
  | c :: o :: body =>
    match L2Channel.tryFrom c with
    | .error e => .error e
    | .ok ch =>
      match L2OpCode.tryFrom o with
      | .error e => .error e
      | .ok op =>
        match op, cipher with
        | .writeEnc, some ci =>
          match ci.decrypt body with
          | .ok pt => .ok { channel := ch, opcode := op, payload := pt }
          | .error _ => .error .decryptFailed
        | _, _ => .ok { channel := ch, opcode := op, payload := body }
  | _ => .error .tooShort

/-- Encrypted encoding from the spec contract (`encode_encrypted(channel,
payload, cipher)`): encrypt the payload with the bound cipher and stamp
opcode `WriteEnc`; mirrors `L2Packet::pb_write_enc` generalized over the
channel. -/
def encode_encrypted (ch : L2Channel) (payload : List ℕ) (ci : L2CipherM) :
    Except L2Error L2Packet :=
  match ci.encrypt payload with
  | .ok ct => .ok { channel := ch, opcode := .writeEnc, payload := ct }
  | .error _ => .error .decryptFailed

/-! ## AES-128-CTR, modelled from the spec.

The crypto primitives are external collaborators (`crate::crypto` is not
part of the sources); the spec pins them down as standard AES-128-CTR
(`aes128_ctr_crypt(key, iv, data)` with the counter block starting at `iv`
and incremented big-endian per block, data xored with the keystream). -/

/-- Modelled from the spec: the AES forward S-box (FIPS 197). -/
def sbox : List ℕ := [
  99, 124, 119, 123, 242, 107, 111, 197, 48, 1, 103, 43, 254, 215, 171, 118,
  202, 130, 201, 125, 250, 89, 71, 240, 173, 212, 162, 175, 156, 164, 114, 192,
  183, 253, 147, 38, 54, 63, 247, 204, 52, 165, 229, 241, 113, 216, 49, 21,
  4, 199, 35, 195, 24, 150, 5, 154, 7, 18, 128, 226, 235, 39, 178, 117,
  9, 131, 44, 26, 27, 110, 90, 160, 82, 59, 214, 179, 41, 227, 47, 132,
  83, 209, 0, 237, 32, 252, 177, 91, 106, 203, 190, 57, 74, 76, 88, 207,
  208, 239, 170, 251, 67, 77, 51, 133, 69, 249, 2, 127, 80, 60, 159, 168,
  81, 163, 64, 143, 146, 157, 56, 245, 188, 182, 218, 33, 16, 255, 243, 210,
  205, 12, 19, 236, 95, 151, 68, 23, 196, 167, 126, 61, 100, 93, 25, 115,
  96, 129, 79, 220, 34, 42, 144, 136, 70, 238, 184, 20, 222, 94, 11, 219,
  224, 50, 58, 10, 73, 6, 36, 92, 194, 211, 172, 98, 145, 149, 228, 121,
  231, 200, 55, 109, 141, 213, 78, 169, 108, 86, 244, 234, 101, 122, 174, 8,
  186, 120, 37, 46, 28, 166, 180, 198, 232, 221, 116, 31, 75, 189, 139, 138,
  112, 62, 181, 102, 72, 3, 246, 14, 97, 53, 87, 185, 134, 193, 29, 158,
  225, 248, 152, 17, 105, 217, 142, 148, 155, 30, 135, 233, 206, 85, 40, 223,
  140, 161, 137, 13, 191, 230, 66, 104, 65, 153, 45, 15, 176, 84, 187, 22]

/-- S-box lookup on a byte. -/
def sboxAt (b : ℕ) : ℕ := sbox.getD b 0

/-- Round constants of the AES-128 key schedule. -/
def rcon : List ℕ := [1, 2, 4, 8, 16, 32, 64, 128, 27, 54]

/-- Byte-wise xor of two equal-length byte strings. -/
def xorBytes (a b : List ℕ) : List ℕ := List.zipWith (· ^^^ ·) a b

/-- Multiplication by `x` in GF(2^8) with the AES reduction polynomial. -/
def xtime (a : ℕ) : ℕ :=
  if a &&& 0x80 ≠ 0 then ((a <<< 1) ^^^ 0x1B) &&& 0xFF else a <<< 1

/-- Key-schedule word transform for positions divisible by 4. -/
def subWord (w : List ℕ) : List ℕ := w.map sboxAt

/-- Rotate a 4-byte word left by one byte. -/
def rotWord (w : List ℕ) : List ℕ := w.drop 1 ++ w.take 1

/-- Key-schedule word transform (`RotWord`/`SubWord`/`Rcon` when the word
index is divisible by 4, identity otherwise). -/
def expandT (ws : List (List ℕ)) : List ℕ :=
  if ws.length % 4 = 0 then
    xorBytes (subWord (rotWord ((ws.getLast?).getD [])))
      [rcon.getD (ws.length / 4 - 1) 0, 0, 0, 0]
  else (ws.getLast?).getD []

/-- One expansion step: append the next 4-byte word to the schedule. -/
def expandStep (ws : List (List ℕ)) : List (List ℕ) :=
  ws ++ [xorBytes (ws.getD (ws.length - 4) []) (expandT ws)]

/-- Iterate the expansion step. -/
def expandIter : ℕ → List (List ℕ) → List (List ℕ)
  | 0, ws => ws
  | n + 1, ws => expandStep (expandIter n ws)

/-- The 44-word AES-128 key schedule of a 16-byte key. -/
def keyWords (key : List ℕ) : List (List ℕ) :=
  expandIter 40
    [key.take 4, (key.drop 4).take 4, (key.drop 8).take 4, (key.drop 12).take 4]

/-- Round key `r` (16 bytes) of a 16-byte key. -/
def roundKey (key : List ℕ) (r : ℕ) : List ℕ :=
  (((keyWords key).drop (4 * r)).take 4).flatten

/-- SubBytes: apply the S-box to every state byte. -/
def subBytes (s : List ℕ) : List ℕ := s.map sboxAt

/-- Index permutation of ShiftRows on the column-major 16-byte state. -/
def shiftRowsIdx (i : ℕ) : ℕ := i % 4 + 4 * ((i / 4 + i % 4) % 4)

/-- ShiftRows: row `r` of the state rotated left by `r`. -/
def shiftRows (s : List ℕ) : List ℕ :=
  (List.range 16).map (fun i => s.getD (shiftRowsIdx i) 0)

/-- MixColumns on a single 4-byte column. -/
def mixColumn (col : List ℕ) : List ℕ :=
  match col with
  | [a, b, c, d] =>
    [xtime a ^^^ (xtime b ^^^ b) ^^^ c ^^^ d,
     a ^^^ xtime b ^^^ (xtime c ^^^ c) ^^^ d,
     a ^^^ b ^^^ xtime c ^^^ (xtime d ^^^ d),
     (xtime a ^^^ a) ^^^ b ^^^ c ^^^ xtime d]
  | _ => col

/-- MixColumns over the four state columns. -/
def mixColumns (s : List ℕ) : List ℕ :=
  (mixColumn (s.take 4)) ++ (mixColumn ((s.drop 4).take 4)) ++
  (mixColumn ((s.drop 8).take 4)) ++ (mixColumn ((s.drop 12).take 4))

/-- AES-128 encryption of one 16-byte block (FIPS 197). -/
def encryptBlock (key block : List ℕ) : List ℕ :=
  let s0 := xorBytes block (roundKey key 0)
  let sMain := (List.range 9).foldl
    (fun s r => xorBytes (mixColumns (shiftRows (subBytes s))) (roundKey key (r + 1)))
    s0
  xorBytes (shiftRows (subBytes sMain)) (roundKey key 10)

/-- Big-endian value of a byte string. -/
def beToNat (l : List ℕ) : ℕ := l.foldl (fun acc b => acc * 256 + b) 0

/-- A natural number as a 16-byte big-endian counter block. -/
def natToBE16 (n : ℕ) : List ℕ :=
  (List.range 16).map (fun i => n / 256 ^ (15 - i) % 256)

/-- The `i`-th CTR counter block: `iv` incremented `i` times, big-endian. -/
def ctrBlock (iv : List ℕ) (i : ℕ) : List ℕ :=
  natToBE16 ((beToNat iv + i) % 2 ^ 128)

/-- The first `n` bytes of the AES-128-CTR keystream. -/
def ctrKeystream (key iv : List ℕ) (n : ℕ) : List ℕ :=
  (((List.range ((n + 15) / 16)).map
    (fun i => encryptBlock key (ctrBlock iv i))).flatten).take n

/-- Modelled from the spec: `crate::crypto::aesctr::aes128_ctr_crypt` — xor
the data with the AES-128-CTR keystream keyed by `key` with initial counter
block `iv`. -/
def aes128_ctr_crypt (key iv data : List ℕ) : List ℕ :=
  List.zipWith (· ^^^ ·) data (ctrKeystream key iv data.length)

/-! ## The version-2 per-device cipher — `src/device/xiaomi/packet/cipher.rs` -/

/-- Key material of `V2L2Cipher` (distinct directional 16-byte keys). -/
structure V2L2Cipher where
  enc_key : List ℕ
  dec_key : List ℕ
deriving DecidableEq, Repr

/-- The encrypt direction: AES-128-CTR with `enc_key` as both key and IV. -/
def V2L2Cipher.encrypt (c : V2L2Cipher) (pt : List ℕ) : Except Unit (List ℕ) :=
  .ok (aes128_ctr_crypt c.enc_key c.enc_key pt)

/-- The decrypt direction: AES-128-CTR with `dec_key` as both key and IV. -/
def V2L2Cipher.decrypt (c : V2L2Cipher) (ct : List ℕ) : Except Unit (List ℕ) :=
  .ok (aes128_ctr_crypt c.dec_key c.dec_key ct)

/-- The `L2Cipher` capability view of a `V2L2Cipher`. -/
def V2L2Cipher.toCipher (c : V2L2Cipher) : L2CipherM :=
  { encrypt := c.encrypt, decrypt := c.decrypt }

/-! ## Supporting lemmas for the L2 cipher -/

theorem expandIter_length (n : ℕ) (ws : List (List ℕ)) :
    (expandIter n ws).length = ws.length + n := by
  induction n with
  | zero => rfl
  | succ m ih =>
    simp only [expandIter, expandStep, List.length_append, ih, List.length_singleton]
    omega

theorem expandT_length (ws : List (List ℕ))
    (hlen : 4 ≤ ws.length) (hw : ∀ w ∈ ws, w.length = 4) :
    (expandT ws).length = 4 := by
  have hne : ws ≠ [] := by intro h; rw [h] at hlen; simp at hlen
  have hprev : ((ws.getLast?).getD []).length = 4 := by
    rw [List.getLast?_eq_getLast ws hne]
    exact hw _ (List.getLast_mem hne)
  unfold expandT
  split
  · simp only [xorBytes, List.length_zipWith, subWord, List.length_map,
      rotWord, List.length_append, List.length_drop, List.length_take, hprev,
      List.length_cons, List.length_nil]
    omega
  · exact hprev

theorem expandStep_words (ws : List (List ℕ))
    (hlen : 4 ≤ ws.length) (hw : ∀ w ∈ ws, w.length = 4) :
    ∀ w ∈ expandStep ws, w.length = 4 := by
  intro w hwmem
  simp only [expandStep, List.mem_append, List.mem_singleton] at hwmem
  rcases hwmem with h | h
  · exact hw w h
  · subst h
    have hget : ws.getD (ws.length - 4) [] ∈ ws := by
      have hlt : ws.length - 4 < ws.length := by omega
      rw [List.getD_eq_getElem ws [] hlt]
      exact List.getElem_mem hlt
    simp only [xorBytes, List.length_zipWith, hw _ hget,
      expandT_length ws hlen hw]
    omega

theorem expandIter_words (n : ℕ) (ws : List (List ℕ))
    (hlen : 4 ≤ ws.length) (hw : ∀ w ∈ ws, w.length = 4) :
    ∀ w ∈ expandIter n ws, w.length = 4 := by
  induction n with
  | zero => exact hw
  | succ m ih =>
    have hlen' : 4 ≤ (expandIter m ws).length := by
      rw [expandIter_length]; omega
    exact expandStep_words _ hlen' ih

theorem keyWords_words (key : List ℕ) (hk : key.length = 16) :
    ∀ w ∈ keyWords key, w.length = 4 := by
  apply expandIter_words
  · simp
  · intro w hw
    simp only [List.mem_cons, List.not_mem_nil, or_false] at hw
    rcases hw with h | h | h | h <;> subst h <;>
      simp [List.length_take, List.length_drop, hk]

theorem keyWords_length (key : List ℕ) : (keyWords key).length = 44 := by
  unfold keyWords
  rw [expandIter_length]
  rfl

theorem flatten_length_of_uniform (k : ℕ) (l : List (List ℕ))
    (h : ∀ w ∈ l, w.length = k) : l.flatten.length = k * l.length := by
  induction l with
  | nil => simp
  | cons x xs ih =>
    simp only [List.flatten_cons, List.length_append, List.length_cons]
    rw [h x (List.mem_cons_self x xs),
      ih (fun w hw => h w (List.mem_cons_of_mem x hw))]
    ring

theorem roundKey_length (key : List ℕ) (hk : key.length = 16) (r : ℕ)
    (hr : r ≤ 10) : (roundKey key r).length = 16 := by
  unfold roundKey
  rw [flatten_length_of_uniform 4]
  · rw [List.length_take, List.length_drop, keyWords_length]
    omega
  · intro w hw
    exact keyWords_words key hk w (List.mem_of_mem_drop (List.mem_of_mem_take hw))

theorem encryptBlock_length (key block : List ℕ) (hk : key.length = 16) :
    (encryptBlock key block).length = 16 := by
  unfold encryptBlock
  simp only [xorBytes, List.length_zipWith, shiftRows, List.length_map,
    List.length_range, roundKey_length key hk 10 (by omega)]
  rfl

theorem ctrKeystream_length (key iv : List ℕ) (n : ℕ) (hk : key.length = 16) :
    (ctrKeystream key iv n).length = n := by
  unfold ctrKeystream
  rw [List.length_take]
  rw [flatten_length_of_uniform 16]
  · rw [List.length_map, List.length_range]
    omega
  · intro w hw
    simp only [List.mem_map] at hw
    obtain ⟨i, _, hweq⟩ := hw
    rw [← hweq]
    exact encryptBlock_length key _ hk

theorem zipWith_xor_cancel (p : List ℕ) :
    ∀ ks : List ℕ, p.length ≤ ks.length →
      List.zipWith (· ^^^ ·) (List.zipWith (· ^^^ ·) p ks) ks = p := by
  induction p with
  | nil => intro ks _; simp
  | cons x xs ih =>
    intro ks hlen
    cases ks with
    | nil => simp at hlen
    | cons k kt =>
      simp only [List.zipWith_cons_cons, List.cons.injEq]
      constructor
      · exact Nat.xor_cancel_right k x
      · exact ih kt (by simpa using hlen)

theorem aes_ctr_involution (k iv p : List ℕ) (hk : k.length = 16) :
    aes128_ctr_crypt k iv (aes128_ctr_crypt k iv p) = p := by
  have hks : (ctrKeystream k iv p.length).length = p.length :=
    ctrKeystream_length k iv p.length hk
  unfold aes128_ctr_crypt
  have hct : (List.zipWith (· ^^^ ·) p (ctrKeystream k iv p.length)).length =
      p.length := by
    rw [List.length_zipWith, hks]
    omega
  rw [hct]
  exact zipWith_xor_cancel p _ (le_of_eq hks.symm)

theorem channel_tryFrom_toNat (ch : L2Channel) :
    L2Channel.tryFrom ch.toNat = .ok ch := by
  cases ch <;> rfl

theorem opcode_tryFrom_toNat (op : L2OpCode) :
    L2OpCode.tryFrom op.toNat = .ok op := by
  cases op <;> rfl

set_option maxRecDepth 4000 in
/--
Counterexample to **C4** as stated: with the version-2 cipher
`enc_key = 0^16`, `dec_key = 0^15 ∥ 01` (distinct directional keys, as the
KDF produces in general), encrypted encoding of plaintext `[0]` on the PB
channel followed by decoding **with the same cipher** returns payload
`[199]` (`= 0 ⊕ AES_ctr(enc_key)[0] ⊕ AES_ctr(dec_key)[0]`), not the
original plaintext `[0]`: the decrypt direction is keyed by `dec_key`, so
it does not invert the `enc_key` encryption.
-/
theorem c4_counterexample :
    (encode_encrypted L2Channel.pb [0]
        (V2L2Cipher.toCipher ⟨List.replicate 16 0, List.replicate 15 0 ++ [1]⟩)).map
      (fun pkt => L2Packet.from_bytes pkt.to_bytes
        (some (V2L2Cipher.toCipher ⟨List.replicate 16 0, List.replicate 15 0 ++ [1]⟩))) =
      .ok (.ok { channel := .pb, opcode := .writeEnc, payload := [199] }) ∧
    (Except.ok (Except.ok { channel := .pb, opcode := .writeEnc, payload := [199] }) :
        Except L2Error (Except L2Error L2Packet)) ≠
      .ok (.ok { channel := .pb, opcode := .writeEnc, payload := [0] }) := by
  constructor
  · rfl
  · simp

/--
Claim C4 (amended): For every channel, plaintext payload and pair of
version-2 ciphers whose decrypt direction is keyed by the key the encoder
encrypted with (`dec.dec_key = enc.enc_key`, as holds between the two
endpoint ciphers after authentication), encrypted encoding stamps
`WRITE-ENC` and the AES-128-CTR ciphertext (key = initial counter block =
`enc_key`), decoding those bytes with the matching cipher recovers the same
channel, opcode `WRITE-ENC` and the original plaintext, and decoding the
same bytes without a cipher yields the ciphertext bytes unchanged.  With
one and the same cipher on both sides this only holds when its two
directional keys coincide.
-/
theorem c4_encrypted_roundtrip (ch : L2Channel) (pt : List ℕ)
    (enc dec : V2L2Cipher)
    (hk : dec.dec_key = enc.enc_key) (hlen : enc.enc_key.length = 16) :
    encode_encrypted ch pt enc.toCipher =
      .ok { channel := ch, opcode := .writeEnc,
            payload := aes128_ctr_crypt enc.enc_key enc.enc_key pt } ∧
    L2Packet.from_bytes
      (L2Packet.to_bytes
        { channel := ch, opcode := .writeEnc,
          payload := aes128_ctr_crypt enc.enc_key enc.enc_key pt })
      (some dec.toCipher) =
      .ok { channel := ch, opcode := .writeEnc, payload := pt } ∧
    L2Packet.from_bytes
      (L2Packet.to_bytes
        { channel := ch, opcode := .writeEnc,
          payload := aes128_ctr_crypt enc.enc_key enc.enc_key pt }) none =
      .ok { channel := ch, opcode := .writeEnc,
            payload := aes128_ctr_crypt enc.enc_key enc.enc_key pt } := by
  refine ⟨rfl, ?_, ?_⟩
  · simp only [L2Packet.to_bytes, L2Packet.from_bytes, channel_tryFrom_toNat,
      opcode_tryFrom_toNat, V2L2Cipher.toCipher, V2L2Cipher.decrypt, hk,
      aes_ctr_involution enc.enc_key enc.enc_key pt hlen]
  · simp only [L2Packet.to_bytes, L2Packet.from_bytes, channel_tryFrom_toNat,
      opcode_tryFrom_toNat]

/-- Witness for the amended C4 theorem: with both directional keys zero the
decode of the encoding recovers plaintext `[5]`. -/
theorem c4_witness :
    L2Packet.from_bytes
      (L2Packet.to_bytes
        { channel := L2Channel.pb, opcode := L2OpCode.writeEnc,
          payload := aes128_ctr_crypt (List.replicate 16 0) (List.replicate 16 0) [5] })
      (some (V2L2Cipher.toCipher ⟨List.replicate 16 0, List.replicate 16 0⟩)) =
      .ok { channel := L2Channel.pb, opcode := L2OpCode.writeEnc, payload := [5] } :=
  (c4_encrypted_roundtrip L2Channel.pb [5]
    ⟨List.replicate 16 0, List.replicate 16 0⟩
    ⟨List.replicate 16 0, List.replicate 16 0⟩ rfl (by simp)).2.1

/-! ## SHA-256 and HMAC, modelled from the spec.

HMAC-SHA256 is an external collaborator (the `hmac`/`sha2` crates); the
spec names it as plain HMAC-SHA256, so it is modelled here from FIPS 180-4
and FIPS 198-1, executable over byte lists. -/

/-- Modelled from the spec: the 64 SHA-256 round constants (FIPS 180-4). -/
def shaK : List ℕ := [
  1116352408, 1899447441, 3049323471, 3921009573, 961987163, 1508970993, 2453635748, 2870763221,
  3624381080, 310598401, 607225278, 1426881987, 1925078388, 2162078206, 2614888103, 3248222580,
  3835390401, 4022224774, 264347078, 604807628, 770255983, 1249150122, 1555081692, 1996064986,
  2554220882, 2821834349, 2952996808, 3210313671, 3336571891, 3584528711, 113926993, 338241895,
  666307205, 773529912, 1294757372, 1396182291, 1695183700, 1986661051, 2177026350, 2456956037,
  2730485921, 2820302411, 3259730800, 3345764771, 3516065817, 3600352804, 4094571909, 275423344,
  430227734, 506948616, 659060556, 883997877, 958139571, 1322822218, 1537002063, 1747873779,
  1955562222, 2024104815, 2227730452, 2361852424, 2428436474, 2756734187, 3204031479, 3329325298]

/-- Right rotation of a 32-bit word by `n`. -/
def rotr32 (n w : ℕ) : ℕ := (w >>> n) ||| ((w % 2 ^ n) <<< (32 - n))

/-- Big sigma-0 of SHA-256. -/
def bsig0 (w : ℕ) : ℕ := rotr32 2 w ^^^ rotr32 13 w ^^^ rotr32 22 w

/-- Big sigma-1 of SHA-256. -/
def bsig1 (w : ℕ) : ℕ := rotr32 6 w ^^^ rotr32 11 w ^^^ rotr32 25 w

/-- Small sigma-0 of SHA-256. -/
def ssig0 (w : ℕ) : ℕ := rotr32 7 w ^^^ rotr32 18 w ^^^ (w >>> 3)

/-- Small sigma-1 of SHA-256. -/
def ssig1 (w : ℕ) : ℕ := rotr32 17 w ^^^ rotr32 19 w ^^^ (w >>> 10)

/-- The SHA-256 choice function (32-bit complement via xor with the mask). -/
def chF (x y z : ℕ) : ℕ := (x &&& y) ^^^ ((x ^^^ 0xFFFFFFFF) &&& z)

/-- The SHA-256 majority function. -/
def majF (x y z : ℕ) : ℕ := (x &&& y) ^^^ (x &&& z) ^^^ (y &&& z)

/-- Big-endian 64-bit serialization of the message bit length. -/
def be64 (n : ℕ) : List ℕ := (List.range 8).map (fun i => n / 256 ^ (7 - i) % 256)

/-- Big-endian 32-bit serialization of a hash word. -/
def be32 (w : ℕ) : List ℕ :=
  [w / 2 ^ 24 % 256, w / 2 ^ 16 % 256, w / 2 ^ 8 % 256, w % 256]

/-- SHA-256 padding: `0x80`, zeros to 56 mod 64, 8-byte big-endian bit length. -/
def sha256pad (msg : List ℕ) : List ℕ :=
  msg ++ [0x80] ++ List.replicate ((64 - (msg.length + 9) % 64) % 64) 0 ++
    be64 (8 * msg.length)

/-- Split a byte string into 64-byte blocks. -/
def chunk64 (l : List ℕ) : List (List ℕ) :=
  if l = [] then [] else l.take 64 :: chunk64 (l.drop 64)
termination_by l.length
decreasing_by
  simp only [List.length_drop]
  rename_i h
  have : l.length ≠ 0 := fun hc => h (List.eq_nil_of_length_eq_zero hc)
  omega

/-- The 16 initial 32-bit message words of one block. -/
def blockWords (b : List ℕ) : List ℕ :=
  (List.range 16).map (fun i => beToNat ((b.drop (4 * i)).take 4))

/-- Extend the message schedule by `n` further words. -/
def extendW : ℕ → List ℕ → List ℕ
  | 0, ws => ws
  | n + 1, ws =>
    extendW n (ws ++ [(ssig1 (ws.getD (ws.length - 2) 0) + ws.getD (ws.length - 7) 0 +
      ssig0 (ws.getD (ws.length - 15) 0) + ws.getD (ws.length - 16) 0) % 2 ^ 32])

/-- The 64-word message schedule of one block. -/
def msgSchedule (b : List ℕ) : List ℕ := extendW 48 (blockWords b)

/-- The 8-word SHA-256 working state. -/
structure Hash8 where
  a : ℕ
  b : ℕ
  c : ℕ
  d : ℕ
  e : ℕ
  f : ℕ
  g : ℕ
  h : ℕ
deriving DecidableEq, Repr

/-- One round of the SHA-256 compression function. -/
def compressStep (st : Hash8) (kw : ℕ × ℕ) : Hash8 :=
  let t1 := (st.h + bsig1 st.e + chF st.e st.f st.g + kw.1 + kw.2) % 2 ^ 32
  let t2 := (bsig0 st.a + majF st.a st.b st.c) % 2 ^ 32
  ⟨(t1 + t2) % 2 ^ 32, st.a, st.b, st.c, (st.d + t1) % 2 ^ 32, st.e, st.f, st.g⟩

/-- Compression of one 64-byte block with Davies-Meyer feed-forward. -/
def compressBlock (st : Hash8) (b : List ℕ) : Hash8 :=
  let fin := (shaK.zip (msgSchedule b)).foldl compressStep st
  ⟨(st.a + fin.a) % 2 ^ 32, (st.b + fin.b) % 2 ^ 32, (st.c + fin.c) % 2 ^ 32,
   (st.d + fin.d) % 2 ^ 32, (st.e + fin.e) % 2 ^ 32, (st.f + fin.f) % 2 ^ 32,
   (st.g + fin.g) % 2 ^ 32, (st.h + fin.h) % 2 ^ 32⟩

/-- The SHA-256 initial hash value. -/
def sha256init : Hash8 :=
  ⟨1779033703, 3144134277, 1013904242, 2773480762,
   1359893119, 2600822924, 528734635, 1541459225⟩

/-- Serialize the working state to the 32-byte digest. -/
def hashBytes (st : Hash8) : List ℕ :=
  be32 st.a ++ be32 st.b ++ be32 st.c ++ be32 st.d ++
  be32 st.e ++ be32 st.f ++ be32 st.g ++ be32 st.h

/-- Modelled from the spec: SHA-256 of a byte string (FIPS 180-4). -/
def sha256 (msg : List ℕ) : List ℕ :=
  hashBytes ((chunk64 (sha256pad msg)).foldl compressBlock sha256init)

/-- Modelled from the spec: HMAC-SHA256 (FIPS 198-1) with byte-string key
and message. -/
def hmacSha256 (key msg : List ℕ) : List ℕ :=
  let k0 := if 64 < key.length then sha256 key else key
  let kp := k0 ++ List.replicate (64 - k0.length) 0
  sha256 ((kp.map (· ^^^ 0x5C)) ++ sha256 ((kp.map (· ^^^ 0x36)) ++ msg))

/-! ## The miwear KDF — `src/device/xiaomi/components/auth.rs` -/

/-- The ASCII bytes of the expansion tag `"miwear-auth"`. -/
def miwearTag : List ℕ := [109, 105, 119, 101, 97, 114, 45, 97, 117, 116, 104]

/-- The expansion loop of `kdf_miwear`: for each counter, the next HMAC block
is `HMAC(hk, prev ∥ tag ∥ counter)` and its prefix is copied into the
64-byte output buffer at the current offset. -/
def kdfLoop (hk prev acc : List ℕ) : List ℕ → List ℕ
  | [] => acc
  | c :: cs =>
    let t := hmacSha256 hk (prev ++ miwearTag ++ [c])
    kdfLoop hk t (acc ++ t.take (64 - acc.length)) cs

/-- Function `kdf_miwear(secret_key, phone_nonce, watch_nonce)`:
`hmac_key = HMAC(phone_nonce ∥ watch_nonce, secret_key)`, then three
expansion rounds with counters 1, 2, 3 filling a 64-byte output. -/
def kdf_miwear (secret_key phone_nonce watch_nonce : List ℕ) : List ℕ :=
  kdfLoop (hmacSha256 (phone_nonce ++ watch_nonce) secret_key) [] [] [1, 2, 3]

/-- The KDF as worded by the spec: three chained HMAC-SHA256 rounds
(`prev` starting empty, message `prev ∥ "miwear-auth" ∥ counter`),
concatenated and truncated to 64 bytes. -/
def okmSpec (secret_key app_random device_random : List ℕ) : List ℕ :=
  let hk := hmacSha256 (app_random ++ device_random) secret_key
  let t1 := hmacSha256 hk ([] ++ miwearTag ++ [1])
  let t2 := hmacSha256 hk (t1 ++ miwearTag ++ [2])
  let t3 := hmacSha256 hk (t2 ++ miwearTag ++ [3])
  (t1 ++ t2 ++ t3).take 64

/-- The key/nonce slices taken from the KDF output in `build_auth_step_2`:
`dec_key = okm[0..16]`, `enc_key = okm[16..32]`, `dec_nonce = okm[32..36]`,
`enc_nonce = okm[36..40]`. -/
def deriveAuthKeys (okm : List ℕ) : List ℕ × List ℕ × List ℕ × List ℕ :=
  (okm.take 16, (okm.drop 16).take 16, (okm.drop 32).take 4, (okm.drop 36).take 4)

/-! ## Supporting lemmas for the KDF -/

theorem sha256_length (msg : List ℕ) : (sha256 msg).length = 32 := by
  simp [sha256, hashBytes, be32]

theorem hmacSha256_length (key msg : List ℕ) :
    (hmacSha256 key msg).length = 32 :=
  sha256_length _

theorem kdfLoop_closed (hk t1 t2 : List ℕ)
    (h1 : hmacSha256 hk (miwearTag ++ [1]) = t1)
    (h2 : hmacSha256 hk (t1 ++ miwearTag ++ [2]) = t2)
    (l1 : t1.length = 32) (l2 : t2.length = 32) :
    kdfLoop hk [] [] [1, 2, 3] = t1 ++ t2 := by
  simp only [kdfLoop, List.nil_append, List.length_nil, Nat.sub_zero]
  rw [h1]
  have ht1 : t1.take 64 = t1 := List.take_of_length_le (by omega)
  rw [ht1, h2, l1]
  have ht2 : t2.take (64 - 32) = t2 := List.take_of_length_le (by omega)
  rw [ht2, List.length_append, l1, l2]
  simp

theorem take64_three (t1 t2 t3 : List ℕ)
    (l1 : t1.length = 32) (l2 : t2.length = 32) :
    (t1 ++ t2 ++ t3).take 64 = t1 ++ t2 := by
  rw [List.take_append_eq_append_take, List.take_append_eq_append_take,
    List.take_of_length_le (by omega), l1,
    List.take_of_length_le (by omega)]
  simp [List.length_append, l1, l2]

/--
Claim C5: The miwear KDF is a (deterministic) function of the 16-byte
shared secret, `app_random` and `device_random` producing exactly 64 bytes;
it agrees with the spec construction — `hmac_key =
HMAC-SHA256(app_random ∥ device_random, secret)`, three chained rounds
`prev := HMAC-SHA256(hmac_key, prev ∥ "miwear-auth" ∥ counter)` for
counters 1, 2, 3 starting from the empty `prev`, concatenated and
truncated to 64 bytes — and the derived slices
`dec_key/enc_key/dec_nonce/enc_nonce` have lengths 16, 16, 4, 4.
-/
theorem c5_kdf_miwear_structure (secret app dev : List ℕ)
    (_hs : secret.length = 16) (_ha : app.length = 16) (_hd : dev.length = 16) :
    (kdf_miwear secret app dev).length = 64 ∧
    kdf_miwear secret app dev = okmSpec secret app dev ∧
    (deriveAuthKeys (kdf_miwear secret app dev)).1.length = 16 ∧
    (deriveAuthKeys (kdf_miwear secret app dev)).2.1.length = 16 ∧
    (deriveAuthKeys (kdf_miwear secret app dev)).2.2.1.length = 4 ∧
    (deriveAuthKeys (kdf_miwear secret app dev)).2.2.2.length = 4 := by
  have hmain : kdf_miwear secret app dev =
      hmacSha256 (hmacSha256 (app ++ dev) secret) ([] ++ miwearTag ++ [1]) ++
      hmacSha256 (hmacSha256 (app ++ dev) secret)
        (hmacSha256 (hmacSha256 (app ++ dev) secret) ([] ++ miwearTag ++ [1]) ++
          miwearTag ++ [2]) := by
    unfold kdf_miwear
    exact kdfLoop_closed _ _ _ rfl rfl (hmacSha256_length _ _) (hmacSha256_length _ _)
  have hspec : okmSpec secret app dev =
      hmacSha256 (hmacSha256 (app ++ dev) secret) ([] ++ miwearTag ++ [1]) ++
      hmacSha256 (hmacSha256 (app ++ dev) secret)
        (hmacSha256 (hmacSha256 (app ++ dev) secret) ([] ++ miwearTag ++ [1]) ++
          miwearTag ++ [2]) := by
    simp only [okmSpec]
    exact take64_three _ _ _ (hmacSha256_length _ _) (hmacSha256_length _ _)
  have hlen : (kdf_miwear secret app dev).length = 64 := by
    rw [hmain, List.length_append, hmacSha256_length, hmacSha256_length]
  refine ⟨hlen, hmain.trans hspec.symm, ?_, ?_, ?_, ?_⟩ <;>
    simp [deriveAuthKeys, List.length_take, List.length_drop, hlen]

/-- Witness for C5 at concrete 16-byte inputs (secret `00..0f`, app nonce
all-1, device nonce all-2). -/
theorem c5_witness :
    (kdf_miwear (List.range 16) (List.replicate 16 1) (List.replicate 16 2)).length = 64 ∧
    kdf_miwear (List.range 16) (List.replicate 16 1) (List.replicate 16 2) =
      okmSpec (List.range 16) (List.replicate 16 1) (List.replicate 16 2) ∧
    (deriveAuthKeys (kdf_miwear (List.range 16) (List.replicate 16 1)
      (List.replicate 16 2))).1.length = 16 ∧
    (deriveAuthKeys (kdf_miwear (List.range 16) (List.replicate 16 1)
      (List.replicate 16 2))).2.1.length = 16 ∧
    (deriveAuthKeys (kdf_miwear (List.range 16) (List.replicate 16 1)
      (List.replicate 16 2))).2.2.1.length = 4 ∧
    (deriveAuthKeys (kdf_miwear (List.range 16) (List.replicate 16 1)
      (List.replicate 16 2))).2.2.2.length = 4 :=
  c5_kdf_miwear_structure (List.range 16) (List.replicate 16 1)
    (List.replicate 16 2) (by simp) (by simp) (by simp)

/-! ## L1 command TLV codec — `src/device/xiaomi/packet/v2/layer1cmd.rs` -/

/-- Insert a key/value pair (later inserts shadow earlier ones on lookup,
mirroring `HashMap::insert`). -/
def cfgInsert (m : List (ℕ × List ℕ)) (k : ℕ) (v : List ℕ) :
    List (ℕ × List ℕ) := m ++ [(k, v)]

/-- Lookup with last-insert-wins semantics. -/
def cfgGet (m : List (ℕ × List ℕ)) (k : ℕ) : Option (List ℕ) :=
  (m.filter (fun e => e.1 = k)).foldl (fun _ e => some e.2) none

/-- The TLV scan of `L1CmdPacket::from_payload_bytes`: key byte, 2-byte LE
size, value; a truncated value stops the scan. -/
def tlvEntries : List ℕ → List (ℕ × List ℕ)
  | k :: s1 :: s2 :: rest =>
    if rd16 s1 s2 ≤ rest.length then
      (k, rest.take (rd16 s1 s2)) :: tlvEntries (rest.drop (rd16 s1 s2))
    else []
  | _ => []
termination_by l => l.length
decreasing_by
  simp only [List.length_drop, List.length_cons]
  omega

/-- Parsed `L1CmdPacket`: command code byte and TLV config entries. -/
structure L1CmdPacket where
  cmd : ℕ
  config : List (ℕ × List ℕ)
deriving DecidableEq, Repr

/-- Function `L1CmdPacket::from_payload_bytes`: empty payload is `None`,
otherwise the first byte is the command code and the rest a TLV scan. -/
def l1cmd_from_payload_bytes : List ℕ → Option L1CmdPacket
  | [] => none
  | c :: rest => some ⟨c, tlvEntries rest⟩

/-- Getter `get_tx_win`/`get_send_timeout`: a 2-byte LE value under the key. -/
def cfgGet2 (m : List (ℕ × List ℕ)) (k : ℕ) : Option ℕ :=
  match cfgGet m k with
  | some [a, b] => some (rd16 a b)
  | _ => none

/-! ## SAR controller — `src/device/xiaomi/sar/mod.rs`

The controller state is embedded as a record; emitted wire frames (ACKs,
NAKs, retransmissions, window sends) are collected in an output list, and
`Instant` deadlines become an abstract `now : ℕ` tick. -/

/-- Structure `QueuedData`: a payload with its pre-assigned sequence. -/
structure QueuedData where
  seq : ℕ
  payload : List ℕ
deriving DecidableEq, Repr

/-- Structure `SendItem`: an in-flight frame with its bookkeeping flags. -/
structure SendItem where
  packet : L1Packet
  wait_ack : Bool
  need_retransmission : Bool
  deadline : ℕ
deriving DecidableEq, Repr

/-- Structure `CommandPool` (`sar/command_pool.rs`): the unbounded command
queue and the ordered data queue. -/
structure CommandPool where
  cmd_queue : List (List ℕ)
  data_queue : List QueuedData
deriving DecidableEq, Repr

/-- The `SarController` mutable state. -/
structure SarState where
  command_pool : CommandPool
  tx_queue : List SendItem
  tx_next_seq : ℕ
  tx_base : ℕ
  tx_win : ℕ
  tx_win_effective : ℕ
  send_timeout : ℕ
  rx_expect_seq : ℕ
  rx_cum_ack_index : ℕ
  rx_cum_ack_seq : ℕ
  rx_cum_ack_timer : Bool
  acked : Finset ℕ
  tx_win_overrun_allowance : ℕ
deriving DecidableEq

/-- 8-bit wrapping subtraction `b.wrapping_sub(a)`. -/
def wsub8 (b a : ℕ) : ℕ := (b % 256 + 256 - a % 256) % 256

/-- Function `SarController::seq_le`: modular comparison `b − a < 128`. -/
def seq_le (a b : ℕ) : Bool := wsub8 b a < 128

/-- Function `compute_soft_cap_with_allowance`:
`win.max(1).saturating_add(allowance).clamp(base, u8::MAX)`. -/
def computeSoftCap (win allowance : ℕ) : ℕ :=
  max (max win 1) (min (max win 1 + allowance) 255)

/-- The ACK frame sent by `send_ack`. -/
def ackPacket (seq : ℕ) : L1Packet := L1Packet.new .ack false seq []

/-- The NAK frame sent by `send_nak`. -/
def nakPacket (seq : ℕ) : L1Packet := L1Packet.new .nak false seq []

/-- The flag/deadline reset applied to a retransmitted entry. -/
def resentItem (now timeout : ℕ) (i : SendItem) : SendItem :=
  { i with need_retransmission := false, wait_ack := true,
           deadline := now + timeout }

/-- First phase of `try_run_next`: re-send the oldest entry flagged
retransmit-needed, resetting its flags and deadline. -/
def resendFirst (now timeout : ℕ) :
    List SendItem → Option (List SendItem × L1Packet)
  | [] => none
  | i :: rest =>
    if i.need_retransmission then
      some (resentItem now timeout i :: rest, i.packet)
    else
      (resendFirst now timeout rest).map (fun p => (i :: p.1, p.2))

/-- Third phase of `try_run_next`: while the tx queue is below the
effective window, pop data payloads, wrap them as DATA frames and push
them into the tx queue. -/
def fillWindow (win timeout now : ℕ) :
    List SendItem → List QueuedData → List SendItem × List QueuedData × List L1Packet
  | q, [] => (q, [], [])
  | q, qd :: rest =>
    if q.length < win then
      let pkt := L1Packet.new .data false qd.seq qd.payload
      let r := fillWindow win timeout now
        (q ++ [⟨pkt, true, false, now + timeout⟩]) rest
      (r.1, r.2.1, pkt :: r.2.2)
    else (q, qd :: rest, [])

/-- Function `SarController::try_run_next`: retransmit first; otherwise
flush all pending commands and then fill the window from the data queue. -/
def try_run_next (now : ℕ) (s : SarState) : SarState × List L1Packet :=
  match resendFirst now s.send_timeout s.tx_queue with
  | some qp => ({ s with tx_queue := qp.1 }, [qp.2])
  | none =>
    let cmdPkts := s.command_pool.cmd_queue.map (fun c => L1Packet.new .cmd false 0 c)
    let r := fillWindow (max s.tx_win_effective 1) s.send_timeout now
      s.tx_queue s.command_pool.data_queue
    ({ s with command_pool := ⟨[], r.2.1⟩, tx_queue := r.1 }, cmdPkts ++ r.2.2)

/-- The drain loop of `handle_ack`: pop the queue head while its sequence
is `≤` the acknowledged one (modular), recording each drained sequence and
advancing `tx_base`. -/
def drainAck (ackSeq : ℕ) :
    List SendItem → Finset ℕ → ℕ → List SendItem × Finset ℕ × ℕ
  | [], acked, base => ([], acked, base)
  | i :: rest, acked, base =>
    if seq_le i.packet.seq ackSeq then
      drainAck ackSeq rest (insert i.packet.seq acked) ((base + 1) % 256)
    else (i :: rest, acked, base)

/-- Function `SarController::handle_ack`. -/
def handle_ack (now seq : ℕ) (s : SarState) : SarState × List L1Packet :=
  let d := drainAck seq s.tx_queue s.acked s.tx_base
  try_run_next now { s with tx_queue := d.1, acked := d.2.1, tx_base := d.2.2 }

/-- The marking loop of `handle_nak`: flag every entry with sequence
`≥ seq` (modular) retransmit-needed and clear its wait-ack flag. -/
def nakMarkQueue (seq : ℕ) (q : List SendItem) : List SendItem :=
  q.map (fun i =>
    if seq_le seq i.packet.seq then
      { i with need_retransmission := true, wait_ack := false }
    else i)

/-- Function `SarController::handle_nak`: for `seq > 0` first behave as
`handle_ack (seq − 1)`, then mark all entries `≥ seq`, then run the
scheduler. -/
def handle_nak (now seq : ℕ) (s : SarState) : SarState × List L1Packet :=
  let a := if 0 < seq then handle_ack now (seq - 1) s else (s, [])
  let r := try_run_next now { a.1 with tx_queue := nakMarkQueue seq a.1.tx_queue }
  (r.1, a.2 ++ r.2)

/-- The L2 channel of an inbound DATA frame, read from its first payload
byte (`l1.payload.get(0).and_then(|b| L2Channel::try_from(*b).ok())`). -/
def l2ChannelOf (payload : List ℕ) : Option L2Channel :=
  payload.head?.bind (fun b => (L2Channel.tryFrom b).toOption)

/-- Function `SarController::on_l1_packet`.  Returns the state, the frames
sent in response, and whether the frame is delivered up the stack. -/
def on_l1_packet (now : ℕ) (s : SarState) (l1 : L1Packet) :
    SarState × List L1Packet × Bool :=
  match l1.pkt_type with
  | .ack =>
    let r := handle_ack now l1.seq s
    (r.1, r.2, false)
  | .nak =>
    let r := handle_nak now l1.seq s
    (r.1, r.2, false)
  | .cmd =>
    match l1cmd_from_payload_bytes l1.payload with
    | some cmd =>
      if cmd.cmd = 2 then
        let s1 := match cfgGet2 cmd.config 3 with
          | some win =>
            { s with tx_win := min (max win 1) 255,
                     tx_win_effective := computeSoftCap (min (max win 1) 255)
                       s.tx_win_overrun_allowance }
          | none => s
        let s2 := match cfgGet2 cmd.config 4 with
          | some t => { s1 with send_timeout := t }
          | none => s1
        (s2, [], false)
      else (s, [], false)
    | none => (s, [], false)
  | .data =>
    if l2ChannelOf l1.payload = some .network then (s, [], true)
    else if l1.frx then
      ({ s with rx_expect_seq := (s.rx_expect_seq + 1) % 256 }, [], true)
    else if l1.seq ≠ s.rx_expect_seq then
      (s, [nakPacket s.rx_expect_seq], false)
    else if l2ChannelOf l1.payload ≠ some .network then
      if (max s.tx_win_effective 1) * 2 / 3 ≤ s.rx_cum_ack_index ∨
          l2ChannelOf l1.payload = some .pb ∨ l2ChannelOf l1.payload = some .lyra then
        ({ s with rx_cum_ack_timer := false, rx_cum_ack_index := 0,
                  rx_expect_seq := (s.rx_expect_seq + 1) % 256 },
         [ackPacket l1.seq], true)
      else
        ({ s with rx_cum_ack_index := min (s.rx_cum_ack_index + 1) 255,
                  rx_cum_ack_seq := l1.seq,
                  rx_cum_ack_timer := true,
                  rx_expect_seq := (s.rx_expect_seq + 1) % 256 }, [], true)
    else
      ({ s with rx_expect_seq := (s.rx_expect_seq + 1) % 256 }, [], true)

/-- Function `SarController::alloc_seq` with the wrap-time clearing of the
acked set, followed by the data-queue push of `enqueue`. -/
def sar_enqueue (now : ℕ) (s : SarState) (data : List ℕ) :
    SarState × ℕ × List L1Packet :=
  let seq := s.tx_next_seq
  let nxt := (s.tx_next_seq + 1) % 256
  let s1 := { s with tx_next_seq := nxt,
                     acked := if nxt = 0 then ∅ else s.acked }
  let s2 := { s1 with command_pool :=
    { s1.command_pool with data_queue := s1.command_pool.data_queue ++ [⟨seq, data⟩] } }
  let r := try_run_next now s2
  (r.1, seq, r.2)

/-! ## Claims C2 and C3 about the SAR controller -/

/-- A quiescent controller state used by the C2 theorems: fresh counters,
empty queues, default window 16 with soft cap 18. -/
def c2St : SarState :=
  { command_pool := ⟨[], []⟩, tx_queue := [], tx_next_seq := 0, tx_base := 0,
    tx_win := 16, tx_win_effective := 18, send_timeout := 15000,
    rx_expect_seq := 0, rx_cum_ack_index := 0, rx_cum_ack_seq := 0,
    rx_cum_ack_timer := false, acked := ∅, tx_win_overrun_allowance := 2 }

/--
Counterexample to **C2** as stated: an in-order DATA frame whose first
payload byte is the NETWORK channel (7) is delivered up (`true`) but
`rx_expect_seq` is **not** advanced — the network channel bypasses
sequencing entirely — contradicting the claim that any in-order DATA frame
advances `rx_expect_seq` to `(seq + 1) mod 256`.
-/
theorem c2_counterexample :
    (on_l1_packet 0 c2St (L1Packet.new .data false 0 [7])).2.2 = true ∧
    (on_l1_packet 0 c2St (L1Packet.new .data false 0 [7])).1.rx_expect_seq = 0 ∧
    (0 : ℕ) ≠ (0 + 1) % 256 :=
  ⟨rfl, rfl, by decide⟩

/--
Claim C2 (amended): For every inbound L1 DATA frame that is neither on the
NETWORK channel nor flagged fast-receive: if its sequence equals
`rx_expect_seq` then afterwards `rx_expect_seq = (seq + 1) mod 256`, the
handler returns true and no NAK is sent; if its sequence differs, a NAK
carrying the pre-call `rx_expect_seq` is the only frame sent, the handler
returns false and `rx_expect_seq` is unchanged.  (NETWORK-channel frames
are delivered without any sequence bookkeeping, and fast-receive frames
advance `rx_expect_seq` without ACK/NAK.)
-/
theorem c2_data_sequencing (now : ℕ) (s : SarState) (l1 : L1Packet)
    (hty : l1.pkt_type = .data)
    (hch : l2ChannelOf l1.payload ≠ some .network)
    (hfrx : l1.frx = false) :
    (l1.seq = s.rx_expect_seq →
      (on_l1_packet now s l1).1.rx_expect_seq = (l1.seq + 1) % 256 ∧
      (on_l1_packet now s l1).2.2 = true ∧
      nakPacket s.rx_expect_seq ∉ (on_l1_packet now s l1).2.1) ∧
    (l1.seq ≠ s.rx_expect_seq →
      (on_l1_packet now s l1).2.1 = [nakPacket s.rx_expect_seq] ∧
      (on_l1_packet now s l1).2.2 = false ∧
      (on_l1_packet now s l1).1.rx_expect_seq = s.rx_expect_seq) := by
  constructor
  · intro heq
    by_cases hI : (max s.tx_win_effective 1) * 2 / 3 ≤ s.rx_cum_ack_index ∨
        l2ChannelOf l1.payload = some .pb ∨ l2ChannelOf l1.payload = some .lyra
    · have hred : on_l1_packet now s l1 =
          ({ s with rx_cum_ack_timer := false, rx_cum_ack_index := 0,
                    rx_expect_seq := (s.rx_expect_seq + 1) % 256 },
           [ackPacket l1.seq], true) := by
        simp only [on_l1_packet, hty]
        rw [if_neg hch, if_neg (show ¬(l1.frx = true) by simp [hfrx]),
          if_neg (show ¬(l1.seq ≠ s.rx_expect_seq) by simp [heq]),
          if_pos hch, if_pos hI]
      rw [hred]
      refine ⟨by simp [heq], rfl, ?_⟩
      simp [nakPacket, ackPacket, L1Packet.new]
    · have hred : on_l1_packet now s l1 =
          ({ s with rx_cum_ack_index := min (s.rx_cum_ack_index + 1) 255,
                    rx_cum_ack_seq := l1.seq,
                    rx_cum_ack_timer := true,
                    rx_expect_seq := (s.rx_expect_seq + 1) % 256 }, [], true) := by
        simp only [on_l1_packet, hty]
        rw [if_neg hch, if_neg (show ¬(l1.frx = true) by simp [hfrx]),
          if_neg (show ¬(l1.seq ≠ s.rx_expect_seq) by simp [heq]),
          if_pos hch, if_neg hI]
      rw [hred]
      exact ⟨by simp [heq], rfl, by simp⟩
  · intro hne
    have hred : on_l1_packet now s l1 = (s, [nakPacket s.rx_expect_seq], false) := by
      simp only [on_l1_packet, hty]
      rw [if_neg hch, if_neg (show ¬(l1.frx = true) by simp [hfrx]), if_pos hne]
    rw [hred]
    exact ⟨rfl, rfl, rfl⟩

/-- Witness for the amended C2 theorem, at an in-order PB frame (seq 0)
and an out-of-order MASS frame (seq 5) against the quiescent state. -/
theorem c2_witness :
    ((0 : ℕ) = c2St.rx_expect_seq →
      (on_l1_packet 0 c2St (L1Packet.new .data false 0 [1, 9])).1.rx_expect_seq =
        (0 + 1) % 256 ∧
      (on_l1_packet 0 c2St (L1Packet.new .data false 0 [1, 9])).2.2 = true ∧
      nakPacket c2St.rx_expect_seq ∉
        (on_l1_packet 0 c2St (L1Packet.new .data false 0 [1, 9])).2.1) ∧
    ((0 : ℕ) ≠ c2St.rx_expect_seq →
      (on_l1_packet 0 c2St (L1Packet.new .data false 0 [1, 9])).2.1 =
        [nakPacket c2St.rx_expect_seq] ∧
      (on_l1_packet 0 c2St (L1Packet.new .data false 0 [1, 9])).2.2 = false ∧
      (on_l1_packet 0 c2St (L1Packet.new .data false 0 [1, 9])).1.rx_expect_seq =
        c2St.rx_expect_seq) :=
  c2_data_sequencing 0 c2St (L1Packet.new .data false 0 [1, 9])
    rfl (by decide) rfl

/-! ### Supporting lemmas for the NAK semantics -/

theorem resendFirst_none_of (now t : ℕ) (q : List SendItem)
    (h : ∀ i ∈ q, i.need_retransmission = false) :
    resendFirst now t q = none := by
  induction q with
  | nil => rfl
  | cons i rest ih =>
    unfold resendFirst
    rw [if_neg (show ¬(i.need_retransmission = true) by
      simp [h i (List.mem_cons_self i rest)])]
    rw [ih (fun j hj => h j (List.mem_cons_of_mem i hj))]
    rfl

theorem resendFirst_some_spec (now t : ℕ) :
    ∀ (q q' : List SendItem) (pkt : L1Packet),
      resendFirst now t q = some (q', pkt) →
      q'.map (fun i => i.packet) = q.map (fun i => i.packet) ∧
      ∀ j ∈ q', j ∈ q ∨
        (j.wait_ack = true ∧ j.need_retransmission = false ∧ j.packet = pkt) := by
  intro q
  induction q with
  | nil => intro q' pkt h; exact absurd h (by simp [resendFirst])
  | cons i rest ih =>
    intro q' pkt h
    simp only [resendFirst] at h
    by_cases hflag : i.need_retransmission = true
    · rw [if_pos hflag] at h
      obtain ⟨hq, hpkt⟩ : resentItem now t i :: rest = q' ∧ i.packet = pkt := by
        constructor
        · exact congrArg Prod.fst (Option.some.inj h)
        · exact congrArg Prod.snd (Option.some.inj h)
      subst hq hpkt
      constructor
      · simp [resentItem]
      · intro j hj
        rcases List.mem_cons.mp hj with hj1 | hj2
        · subst hj1
          exact Or.inr ⟨rfl, rfl, rfl⟩
        · exact Or.inl (List.mem_cons_of_mem i hj2)
    · rw [if_neg hflag] at h
      cases hrec : resendFirst now t rest with
      | none => rw [hrec] at h; exact absurd h (by simp)
      | some p =>
        rw [hrec] at h
        replace h : (i :: p.1, p.2) = (q', pkt) := Option.some.inj h
        obtain ⟨hq, hpkt⟩ : i :: p.1 = q' ∧ p.2 = pkt :=
          ⟨congrArg Prod.fst h, congrArg Prod.snd h⟩
        subst hq hpkt
        obtain ⟨hmap, hmem⟩ := ih p.1 p.2 (by rw [hrec])
        constructor
        · simp [hmap]
        · intro j hj
          rcases List.mem_cons.mp hj with hj1 | hj2
          · subst hj1; exact Or.inl (List.mem_cons_self j rest)
          · rcases hmem j hj2 with hm | hm
            · exact Or.inl (List.mem_cons_of_mem i hm)
            · exact Or.inr hm

theorem try_run_next_acked (now : ℕ) (s : SarState) :
    (try_run_next now s).1.acked = s.acked := by
  unfold try_run_next
  cases resendFirst now s.send_timeout s.tx_queue <;> rfl

theorem try_run_next_id (now : ℕ) (s : SarState)
    (hflags : ∀ i ∈ s.tx_queue, i.need_retransmission = false)
    (hcmd : s.command_pool.cmd_queue = [])
    (hdata : s.command_pool.data_queue = []) :
    try_run_next now s = (s, []) := by
  unfold try_run_next
  rw [resendFirst_none_of now s.send_timeout s.tx_queue hflags]
  rw [hcmd, hdata]
  rcases s with ⟨⟨cq, dq⟩, tq, a1, a2, a3, a4, a5, a6, a7, a8, a9, a10, a11⟩
  simp_all [fillWindow]

theorem nakMark_map_packet (seq : ℕ) (q : List SendItem) :
    (nakMarkQueue seq q).map (fun i => i.packet) = q.map (fun i => i.packet) := by
  unfold nakMarkQueue
  rw [List.map_map]
  apply List.map_congr_left
  intro i _
  by_cases h : seq_le seq i.packet.seq = true <;> simp [h]

theorem nakMark_flags (seq : ℕ) (q : List SendItem) :
    ∀ i ∈ nakMarkQueue seq q, seq_le seq i.packet.seq = true →
      i.need_retransmission = true ∧ i.wait_ack = false := by
  intro i hi hle
  obtain ⟨j, _, hj⟩ := List.mem_map.mp hi
  by_cases hg : seq_le seq j.packet.seq = true
  · rw [if_pos hg] at hj
    subst hj
    exact ⟨rfl, rfl⟩
  · rw [if_neg hg] at hj
    subst hj
    exact absurd hle hg

theorem drainAck_queue (a : ℕ) (q : List SendItem) :
    ∀ (ak : Finset ℕ) (b : ℕ), (drainAck a q ak b).1 =
      q.dropWhile (fun i => seq_le i.packet.seq a) := by
  induction q with
  | nil => intro ak b; rfl
  | cons i rest ih =>
    intro ak b
    simp only [drainAck, List.dropWhile_cons]
    by_cases h : seq_le i.packet.seq a = true
    · rw [if_pos h, if_pos h, ih]
    · rw [if_neg h, if_neg h]

theorem drainAck_acked (a : ℕ) (q : List SendItem) :
    ∀ (ak : Finset ℕ) (b : ℕ), (drainAck a q ak b).2.1 =
      (q.takeWhile (fun i => seq_le i.packet.seq a)).foldl
        (fun ac i => insert i.packet.seq ac) ak := by
  induction q with
  | nil => intro ak b; rfl
  | cons i rest ih =>
    intro ak b
    simp only [drainAck, List.takeWhile_cons]
    by_cases h : seq_le i.packet.seq a = true
    · rw [if_pos h, if_pos h, ih]
      rfl
    · rw [if_neg h, if_neg h]
      rfl

/-- Behaviour of a `try_run_next` pass when both pools are empty: the
packets in the tx queue are preserved, and every entry either keeps its
flags or is the single re-sent one (wait-ack set, flag cleared, its frame
in the output). -/
theorem try_run_next_after_mark (now : ℕ) (x : SarState)
    (hcmd : x.command_pool.cmd_queue = [])
    (hdata : x.command_pool.data_queue = []) :
    ((try_run_next now x).1.tx_queue.map (fun i => i.packet) =
      x.tx_queue.map (fun i => i.packet)) ∧
    (∀ i ∈ (try_run_next now x).1.tx_queue,
      i ∈ x.tx_queue ∨ (i.wait_ack = true ∧ i.need_retransmission = false ∧
        i.packet ∈ (try_run_next now x).2)) := by
  unfold try_run_next
  cases hres : resendFirst now x.send_timeout x.tx_queue with
  | some qp =>
    obtain ⟨hmap, hmem⟩ := resendFirst_some_spec now x.send_timeout
      x.tx_queue qp.1 qp.2 (by rw [hres])
    constructor
    · simpa using hmap
    · intro i hi
      rcases hmem i (by simpa using hi) with h | h
      · exact Or.inl h
      · exact Or.inr ⟨h.1, h.2.1, by simp [h.2.2]⟩
  | none =>
    rw [hcmd, hdata]
    constructor
    · simp [fillWindow]
    · intro i hi
      exact Or.inl (by simpa [fillWindow] using hi)

/-- A state with an in-flight frame of sequence 255 awaiting ACK, for the
C3 counterexample. -/
def c3St : SarState :=
  { command_pool := ⟨[], []⟩,
    tx_queue := [⟨L1Packet.new .data false 255 [], true, false, 0⟩],
    tx_next_seq := 0, tx_base := 255, tx_win := 16, tx_win_effective := 18,
    send_timeout := 15000, rx_expect_seq := 0, rx_cum_ack_index := 0,
    rx_cum_ack_seq := 0, rx_cum_ack_timer := false, acked := ∅,
    tx_win_overrun_allowance := 2 }

/--
Counterexample to **C3** as stated: on receipt of `NAK(0)` while the frame
with sequence 255 is in flight, sequence 255 is strictly before 0 in the
8-bit modular order (`seq_le 255 (0 − 1 mod 256) = seq_le 255 255 = true`),
so the claim requires it to be drained and recorded as acknowledged; but
`handle_nak` guards the `ACK(seq − 1)` treatment with `seq > 0`, so the
entry stays queued, unacknowledged and unmarked.
-/
theorem c3_counterexample :
    (handle_nak 0 0 c3St).1.tx_queue.map (fun i => i.packet.seq) = [255] ∧
    (handle_nak 0 0 c3St).1.acked = ∅ ∧
    seq_le 255 255 = true :=
  ⟨rfl, rfl, by decide⟩

/--
Claim C3 (amended): For every received `NAK(seq)` with `seq ≠ 0` (the code
skips the cumulative-ACK treatment entirely for `NAK(0)`), processed from a
state with no pending command/data payloads and no retransmit flags set:
the maximal prefix of `tx_queue` whose sequences are `≤ seq − 1` (8-bit
modular comparison) is drained and every drained sequence recorded in the
acked set, exactly as `handle_ack (seq − 1)` does; the surviving entries
are the remaining ones in order; and every surviving entry with sequence
`≥ seq` is either left marked retransmit-needed with its wait-ack flag
cleared, or — for the oldest such entry — was immediately re-sent by the
trailing scheduler pass, leaving it wait-ack with the retransmission
recorded in the output.
-/
theorem c3_nak_drain_and_mark (now seq : ℕ) (s : SarState)
    (h0 : 0 < seq) (_h256 : seq < 256)
    (hcmd : s.command_pool.cmd_queue = [])
    (hdata : s.command_pool.data_queue = [])
    (hflags : ∀ i ∈ s.tx_queue, i.need_retransmission = false) :
    (handle_nak now seq s).1.acked =
      (s.tx_queue.takeWhile (fun i => seq_le i.packet.seq (seq - 1))).foldl
        (fun ac i => insert i.packet.seq ac) s.acked ∧
    (handle_nak now seq s).1.tx_queue.map (fun i => i.packet) =
      (s.tx_queue.dropWhile (fun i => seq_le i.packet.seq (seq - 1))).map
        (fun i => i.packet) ∧
    (∀ i ∈ (handle_nak now seq s).1.tx_queue, seq_le seq i.packet.seq = true →
      (i.need_retransmission = true ∧ i.wait_ack = false) ∨
      (i.wait_ack = true ∧ i.need_retransmission = false ∧
        i.packet ∈ (handle_nak now seq s).2)) := by
  have hdrop_sub : ∀ i ∈ s.tx_queue.dropWhile
      (fun i => seq_le i.packet.seq (seq - 1)), i ∈ s.tx_queue :=
    fun i hi => (List.dropWhile_sublist _).mem hi
  -- the post-drain state produced by `handle_ack (seq − 1)`
  have hack : handle_ack now (seq - 1) s =
      ({ s with
          tx_queue := s.tx_queue.dropWhile (fun i => seq_le i.packet.seq (seq - 1)),
          acked := (s.tx_queue.takeWhile (fun i => seq_le i.packet.seq (seq - 1))).foldl
            (fun ac i => insert i.packet.seq ac) s.acked,
          tx_base := (drainAck (seq - 1) s.tx_queue s.acked s.tx_base).2.2 }, []) := by
    simp only [handle_ack]
    rw [drainAck_queue, drainAck_acked]
    exact try_run_next_id now _
      (fun i hi => hflags i (hdrop_sub i hi)) hcmd hdata
  set s1 : SarState :=
    { s with
        tx_queue := s.tx_queue.dropWhile (fun i => seq_le i.packet.seq (seq - 1)),
        acked := (s.tx_queue.takeWhile (fun i => seq_le i.packet.seq (seq - 1))).foldl
          (fun ac i => insert i.packet.seq ac) s.acked,
        tx_base := (drainAck (seq - 1) s.tx_queue s.acked s.tx_base).2.2 } with hs1
  set s2 : SarState := { s1 with tx_queue := nakMarkQueue seq s1.tx_queue } with hs2
  have hp2c : s2.command_pool.cmd_queue = [] := hcmd
  have hp2d : s2.command_pool.data_queue = [] := hdata
  have hnak : handle_nak now seq s =
      ((try_run_next now s2).1, [] ++ (try_run_next now s2).2) := by
    simp only [handle_nak]
    rw [if_pos h0, hack]
  obtain ⟨hmapQ, hmemQ⟩ := try_run_next_after_mark now s2 hp2c hp2d
  refine ⟨?_, ?_, ?_⟩
  · rw [hnak]
    show (try_run_next now s2).1.acked = _
    rw [try_run_next_acked]
  · rw [hnak]
    show (try_run_next now s2).1.tx_queue.map (fun i => i.packet) = _
    rw [hmapQ]
    show (nakMarkQueue seq s1.tx_queue).map (fun i => i.packet) = _
    rw [nakMark_map_packet, hs1]
  · rw [hnak]
    intro i hi hle
    rcases hmemQ i hi with hin | hre
    · exact Or.inl (nakMark_flags seq s1.tx_queue i hin hle)
    · exact Or.inr ⟨hre.1, hre.2.1, by simpa using hre.2.2⟩

/-- A state with in-flight frames 0, 1, 2, for the C3 witness. -/
def c3WSt : SarState :=
  { command_pool := ⟨[], []⟩,
    tx_queue := [⟨L1Packet.new .data false 0 [], true, false, 0⟩,
                 ⟨L1Packet.new .data false 1 [], true, false, 0⟩,
                 ⟨L1Packet.new .data false 2 [], true, false, 0⟩],
    tx_next_seq := 3, tx_base := 0, tx_win := 16, tx_win_effective := 18,
    send_timeout := 15000, rx_expect_seq := 0, rx_cum_ack_index := 0,
    rx_cum_ack_seq := 0, rx_cum_ack_timer := false, acked := ∅,
    tx_win_overrun_allowance := 2 }

/-- Witness for the amended C3 theorem: `NAK(1)` against in-flight frames
0, 1, 2 drains frame 0 into the acked set and flags frames 1 and 2 (the
oldest being immediately re-sent). -/
theorem c3_witness :
    (handle_nak 7 1 c3WSt).1.acked =
      (c3WSt.tx_queue.takeWhile (fun i => seq_le i.packet.seq (1 - 1))).foldl
        (fun ac i => insert i.packet.seq ac) c3WSt.acked ∧
    (handle_nak 7 1 c3WSt).1.tx_queue.map (fun i => i.packet) =
      (c3WSt.tx_queue.dropWhile (fun i => seq_le i.packet.seq (1 - 1))).map
        (fun i => i.packet) ∧
    (∀ i ∈ (handle_nak 7 1 c3WSt).1.tx_queue, seq_le 1 i.packet.seq = true →
      (i.need_retransmission = true ∧ i.wait_ack = false) ∨
      (i.wait_ack = true ∧ i.need_retransmission = false ∧
        i.packet ∈ (handle_nak 7 1 c3WSt).2)) :=
  c3_nak_drain_and_mark 7 1 c3WSt (by decide) (by decide) rfl rfl (by decide)

/-! ## Cipher registry and PB encoding — `src/device/xiaomi/packet/cipher.rs`

The process-wide registry maps device ids to the per-device key pair from
which the `V2L2Cipher` is built (the stored `SharedL2Cipher` is the cipher
constructed from exactly that pair). -/

/-- Lookup in the registry (`get_l2_cipher`). -/
def registryGet (reg : List (String × List ℕ × List ℕ)) (id : String) :
    Option (List ℕ × List ℕ) :=
  (reg.find? (fun e => e.1 == id)).map (fun e => e.2)

/-- Function `register_l2_cipher`: insert (shadowing any earlier entry). -/
def register_l2_cipher (reg : List (String × List ℕ × List ℕ)) (id : String)
    (keys : List ℕ × List ℕ) : List (String × List ℕ × List ℕ) :=
  (id, keys) :: reg

/-- Constructor `V2L2Cipher::new`: materialize only when both stored auth
keys are 16 bytes. -/
def v2l2cipher_new (enc_key dec_key : List ℕ) : Option V2L2Cipher :=
  if enc_key.length = 16 ∧ dec_key.length = 16 then some ⟨enc_key, dec_key⟩
  else none

/-- Function `ensure_l2_cipher`: return the registered cipher if present;
otherwise, for SAR version 2 only, materialize one from the device's auth
keys and publish it.  Returns the updated registry and the cipher. -/
def ensure_l2_cipher (reg : List (String × List ℕ × List ℕ)) (id : String)
    (sar_version : ℕ) (enc_key dec_key : List ℕ) :
    List (String × List ℕ × List ℕ) × Option V2L2Cipher :=
  match registryGet reg id with
  | some keys => (reg, some ⟨keys.1, keys.2⟩)
  | none =>
    match sar_version with
    | 2 =>
      match v2l2cipher_new enc_key dec_key with
      | some c => (register_l2_cipher reg id (enc_key, dec_key), some c)
      | none => (reg, none)
    | _ => (reg, none)

/-- Function `L2Packet::pb_write` on the serialized PB bytes: the plaintext
`(PB, WRITE)` frame. -/
def pb_write_bytes (pbBytes : List ℕ) : List ℕ :=
  L2Packet.to_bytes ⟨.pb, .write, pbBytes⟩

/-- Function `L2Packet::pb_write_enc` on the serialized PB bytes. -/
def pb_write_enc_packet (pbBytes : List ℕ) (ci : L2CipherM) :
    Except L2Error L2Packet :=
  match ci.encrypt pbBytes with
  | .ok ct => .ok ⟨.pb, .writeEnc, ct⟩
  | .error _ => .error .decryptFailed

/-- The cipher-dispatch core of `encode_pb_packet`: encrypt when a cipher
is available, silently falling back to the plaintext `(PB, WRITE)` frame
when there is none or encryption fails. -/
def encode_pb_with (copt : Option L2CipherM) (pbBytes : List ℕ) : List ℕ :=
  match copt with
  | some ci =>
    match pb_write_enc_packet pbBytes ci with
    | .ok pkt => pkt.to_bytes
    | .error _ => pb_write_bytes pbBytes
  | none => pb_write_bytes pbBytes

/-- Function `encode_pb_packet`: materialize the cipher through
`ensure_l2_cipher_blocking` and dispatch. -/
def encode_pb_packet (reg : List (String × List ℕ × List ℕ)) (id : String)
    (sar_version : ℕ) (enc_key dec_key pbBytes : List ℕ) : List ℕ :=
  encode_pb_with
    (((ensure_l2_cipher reg id sar_version enc_key dec_key).2).map
      V2L2Cipher.toCipher) pbBytes

/-- Function `enqueue_pb_packet`: encode and push into the SAR data queue. -/
def enqueue_pb_packet (now : ℕ) (s : SarState)
    (reg : List (String × List ℕ × List ℕ)) (id : String) (sar_version : ℕ)
    (enc_key dec_key pbBytes : List ℕ) : SarState × ℕ × List L1Packet :=
  sar_enqueue now s (encode_pb_packet reg id sar_version enc_key dec_key pbBytes)

/-! ## Authentication confirm handling — `src/device/xiaomi/components/auth.rs` -/

/-- The per-device `AuthComponent` record. -/
structure AuthComponentM where
  is_authed : Bool
  random_bytes : List ℕ
  enc_key : List ℕ
  dec_key : List ℕ
  enc_nonce : List ℕ
  dec_nonce : List ℕ
deriving DecidableEq, Repr

/-- The `AuthDeviceConfirm` arm of `AuthSystem::on_pb_packet` (component
present): set `is_authed`, take the waiter and complete it with `Ok(())`.
Returns the component, the emptied waiter slot, the (untouched) cipher
registry, and the result delivered to the waiter (`some true` = success). -/
def on_auth_device_confirm (comp : AuthComponentM) (auth_wait : Option Unit)
    (reg : List (String × List ℕ × List ℕ)) :
    AuthComponentM × Option Unit × List (String × List ℕ × List ℕ) × Option Bool :=
  ({ comp with is_authed := true }, none, reg, auth_wait.map (fun _ => true))

/-! ## Claims C8 and C10 -/

/-- An authenticated component with derived 16-byte keys, for the C8
counterexample. -/
def c8Comp : AuthComponentM :=
  { is_authed := false, random_bytes := List.replicate 16 0,
    enc_key := List.replicate 16 1, dec_key := List.replicate 16 2,
    enc_nonce := [1, 2, 3, 4], dec_nonce := [5, 6, 7, 8] }

/--
Counterexample to **C8** as stated: processing `AuthDeviceConfirm` with the
derived keys present and an empty cipher registry sets `is_authed` and
completes the waiter, but leaves the registry empty — the handler never
publishes `(enc_key, dec_key)`; the registry entry is only materialized
lazily by `ensure_l2_cipher` when the first frame is encoded or decoded.
-/
theorem c8_counterexample :
    (on_auth_device_confirm c8Comp (some ()) []).1.is_authed = true ∧
    (on_auth_device_confirm c8Comp (some ()) []).2.2.1 = [] ∧
    registryGet [] "00:11:22" = none :=
  ⟨rfl, rfl, rfl⟩

/--
Claim C8 (amended): On receipt of `AuthDeviceConfirm`, the handler sets
`is_authed := true`, clears the waiter slot and completes the pending
waiter with success, leaving the cipher registry untouched; the derived
`(enc_key, dec_key)` pair reaches the process-wide registry lazily, on the
first `ensure_l2_cipher` call for the device (SAR version 2, both keys 16
bytes), which publishes exactly that pair under the device id.
-/
theorem c8_confirm_and_lazy_publication (comp : AuthComponentM)
    (w : Option Unit) (reg : List (String × List ℕ × List ℕ)) (id : String)
    (hw : w = some ()) :
    (on_auth_device_confirm comp w reg).1.is_authed = true ∧
    (on_auth_device_confirm comp w reg).2.1 = none ∧
    (on_auth_device_confirm comp w reg).2.2.2 = some true ∧
    (on_auth_device_confirm comp w reg).2.2.1 = reg ∧
    (registryGet reg id = none → comp.enc_key.length = 16 →
      comp.dec_key.length = 16 →
      (ensure_l2_cipher reg id 2 comp.enc_key comp.dec_key).2 =
        some ⟨comp.enc_key, comp.dec_key⟩ ∧
      registryGet (ensure_l2_cipher reg id 2 comp.enc_key comp.dec_key).1 id =
        some (comp.enc_key, comp.dec_key)) := by
  subst hw
  refine ⟨rfl, rfl, rfl, rfl, ?_⟩
  intro hmiss he hd
  unfold ensure_l2_cipher
  rw [hmiss]
  unfold v2l2cipher_new
  rw [if_pos ⟨he, hd⟩]
  constructor
  · rfl
  · simp [registryGet, register_l2_cipher]

/-- Witness for the amended C8 theorem at the concrete component and an
empty registry. -/
theorem c8_witness :
    (on_auth_device_confirm c8Comp (some ()) []).1.is_authed = true ∧
    (on_auth_device_confirm c8Comp (some ()) []).2.1 = none ∧
    (on_auth_device_confirm c8Comp (some ()) []).2.2.2 = some true ∧
    (on_auth_device_confirm c8Comp (some ()) []).2.2.1 = [] ∧
    (registryGet [] "00:11:22" = none → c8Comp.enc_key.length = 16 →
      c8Comp.dec_key.length = 16 →
      (ensure_l2_cipher [] "00:11:22" 2 c8Comp.enc_key c8Comp.dec_key).2 =
        some ⟨c8Comp.enc_key, c8Comp.dec_key⟩ ∧
      registryGet (ensure_l2_cipher [] "00:11:22" 2 c8Comp.enc_key
        c8Comp.dec_key).1 "00:11:22" =
        some (c8Comp.enc_key, c8Comp.dec_key)) :=
  c8_confirm_and_lazy_publication c8Comp (some ()) [] "00:11:22" rfl

/--
Claim C10: When no cipher can be materialized for the device — the
registry has no entry and either the SAR version is not 2 or a stored key
is not 16 bytes — or when encryption itself fails, `encode_pb_packet`
(and therefore `enqueue_pb_packet`) silently falls back to the plaintext
`(PB, WRITE)` L2 frame instead of returning an error, and that plaintext
frame is what is pushed into the SAR data queue.
-/
theorem c10_plaintext_fallback (now : ℕ) (s : SarState)
    (reg : List (String × List ℕ × List ℕ)) (id : String) (sar_version : ℕ)
    (enc_key dec_key pbBytes : List ℕ)
    (hmiss : registryGet reg id = none)
    (hnocipher : sar_version ≠ 2 ∨ ¬(enc_key.length = 16 ∧ dec_key.length = 16)) :
    encode_pb_packet reg id sar_version enc_key dec_key pbBytes =
      pb_write_bytes pbBytes ∧
    pb_write_bytes pbBytes = L2Channel.pb.toNat :: L2OpCode.write.toNat :: pbBytes ∧
    (∀ ci : L2CipherM, ci.encrypt pbBytes = .error () →
      encode_pb_with (some ci) pbBytes = pb_write_bytes pbBytes) ∧
    enqueue_pb_packet now s reg id sar_version enc_key dec_key pbBytes =
      sar_enqueue now s (pb_write_bytes pbBytes) := by
  have hnone : (ensure_l2_cipher reg id sar_version enc_key dec_key).2 = none := by
    unfold ensure_l2_cipher
    rw [hmiss]
    rcases hnocipher with hv | hk
    · match sar_version, hv with
      | 0, _ => rfl
      | 1, _ => rfl
      | (n + 3), _ => rfl
    · match sar_version with
      | 2 =>
        simp only
        unfold v2l2cipher_new
        rw [if_neg hk]
      | 0 => rfl
      | 1 => rfl
      | (n + 3) => rfl
  have henc : encode_pb_packet reg id sar_version enc_key dec_key pbBytes =
      pb_write_bytes pbBytes := by
    unfold encode_pb_packet
    rw [hnone]
    rfl
  refine ⟨henc, rfl, ?_, ?_⟩
  · intro ci hfail
    simp only [encode_pb_with, pb_write_enc_packet, hfail]
  · unfold enqueue_pb_packet
    rw [henc]

/-- Witness for C10: empty registry, SAR version 1 — the encoded bytes are
the plaintext `(PB, WRITE)` frame. -/
theorem c10_witness :
    encode_pb_packet [] "00:11:22" 1 [] [] [9, 9] = pb_write_bytes [9, 9] ∧
    pb_write_bytes [9, 9] = L2Channel.pb.toNat :: L2OpCode.write.toNat :: [9, 9] ∧
    (∀ ci : L2CipherM, ci.encrypt [9, 9] = .error () →
      encode_pb_with (some ci) [9, 9] = pb_write_bytes [9, 9]) ∧
    enqueue_pb_packet 0 c2St [] "00:11:22" 1 [] [] [9, 9] =
      sar_enqueue 0 c2St (pb_write_bytes [9, 9]) :=
  c10_plaintext_fallback 0 c2St [] "00:11:22" 1 [] [] [9, 9] rfl
    (Or.inl (by decide))

/-! ## DHCP responder — `src/device/xiaomi/components/network/native/dhcp.rs`

Byte-level IPv4/UDP parsing and BOOTP (de)coding are external collaborators
(`packet_crafter`, `dhcproto`); their results are embedded as a parsed
view: either the outer packet does not parse as IPv4/UDP (`unparsed`), or
it is a datagram with its UDP ports and a DHCP body that is absent (no
bytes after the headers), malformed (`v4::Message::decode` fails — the
source propagates this as an error with `?`), or a decoded message.  The
reply construction (lines 74–103) is translated from the source. -/

/-- DHCP options used by the responder. -/
inductive DhcpOption where
  | messageType (t : ℕ)
  | subnetMask (ip : List ℕ)
  | router (ips : List (List ℕ))
  | leaseTime (n : ℕ)
  | serverId (ip : List ℕ)
  | other (code : ℕ) (body : List ℕ)
deriving DecidableEq, Repr

/-- A decoded BOOTP/DHCP message (opcode 1 = BOOTREQUEST, 2 = BOOTREPLY). -/
structure DhcpMessage where
  opcode : ℕ
  xid : ℕ
  secs : ℕ
  flags : ℕ
  ciaddr : List ℕ
  yiaddr : List ℕ
  siaddr : List ℕ
  giaddr : List ℕ
  chaddr : List ℕ
  opts : List DhcpOption
deriving DecidableEq, Repr

/-- Lookup of the message-type option (`opts().get(OptionCode::MessageType)`). -/
def getMessageType (opts : List DhcpOption) : Option ℕ :=
  opts.findSome? (fun o => match o with | .messageType t => some t | _ => none)

/-- The reply building of `maybe_build_reply` (lines 74–103): clone,
BOOTREPLY, zero secs/flags/ciaddr/giaddr, `yiaddr = 10.1.10.2`,
`siaddr = 10.1.10.1`, then a fresh option set: OFFER for DISCOVER (1),
ACK for REQUEST (3), nothing otherwise, plus subnet mask, router, lease
time and server id. -/
def buildReply (m : DhcpMessage) : DhcpMessage :=
  { m with
      opcode := 2, secs := 0, flags := 0,
      ciaddr := [0, 0, 0, 0], yiaddr := [10, 1, 10, 2],
      siaddr := [10, 1, 10, 1], giaddr := [0, 0, 0, 0],
      opts :=
        (match getMessageType m.opts with
         | some 1 => [DhcpOption.messageType 2]
         | some 3 => [DhcpOption.messageType 5]
         | _ => []) ++
        [DhcpOption.subnetMask [255, 255, 255, 0],
         DhcpOption.router [[10, 1, 10, 1]],
         DhcpOption.leaseTime 269352960,
         DhcpOption.serverId [10, 1, 10, 1]] }

/-- The DHCP body of a ports-matching datagram, as the external decoder
reports it. -/
inductive DhcpBody where
  | absent
  | malformed
  | decoded (m : DhcpMessage)
deriving DecidableEq, Repr

/-- The parsed view of an inbound network packet. -/
inductive NetInput where
  | unparsed
  | datagram (srcPort dstPort : ℕ) (body : DhcpBody)
deriving DecidableEq, Repr

/-- Function `maybe_build_reply`: `None` unless IPv4/UDP from port 68 to
port 67; a too-short DHCP payload gives `None`, an undecodable one
propagates the decode error, a BOOTREQUEST yields the reply. -/
def maybe_build_reply : NetInput → Except Unit (Option DhcpMessage)
  | .unparsed => .ok none
  | .datagram sp dp body =>
    if sp ≠ 68 ∨ dp ≠ 67 then .ok none
    else
      match body with
      | .absent => .ok none
      | .malformed => .error ()
      | .decoded m =>
        if m.opcode ≠ 1 then .ok none
        else .ok (some (buildReply m))

theorem msgTypeArm_other (o : Option ℕ) (h1 : o ≠ some 1) (h3 : o ≠ some 3) :
    (match o with
     | some 1 => [DhcpOption.messageType 2]
     | some 3 => [DhcpOption.messageType 5]
     | _ => ([] : List DhcpOption)) = [] := by
  match o with
  | none => rfl
  | some 0 => rfl
  | some 1 => exact absurd rfl h1
  | some 2 => rfl
  | some 3 => exact absurd rfl h3
  | some (n + 4) => rfl

/--
Counterexample to **C7** as stated: a UDP datagram with the right ports
(68 → 67) whose DHCP body fails to decode makes `maybe_build_reply`
propagate the decode error (`v4::Message::decode(&mut decoder)?`) instead
of returning `None`, although such a packet is not a BOOTREQUEST.
-/
theorem c7_counterexample :
    maybe_build_reply (.datagram 68 67 .malformed) = .error () ∧
    (Except.error () : Except Unit (Option DhcpMessage)) ≠ .ok none := by
  constructor
  · rfl
  · simp

/--
Claim C7 (amended): `maybe_build_reply` returns `None` for unparseable
packets, for datagrams whose ports are not 68 → 67, for ports-matching
datagrams with no DHCP payload, and for decoded non-BOOTREQUEST messages;
a ports-matching datagram whose DHCP body fails to decode yields a decode
error rather than `None`.  For a decoded BOOTREQUEST the reply is a
BOOTREPLY with `yiaddr = 10.1.10.2`, `siaddr = 10.1.10.1`, `giaddr = 0`,
`secs = 0`, `flags = 0`, message type OFFER for DISCOVER, ACK for REQUEST
and omitted otherwise, always carrying subnet mask `255.255.255.0`,
router `10.1.10.1`, lease time `269352960` and server id `10.1.10.1`.
-/
theorem c7_dhcp_responder (m : DhcpMessage) (sp dp : ℕ) :
    maybe_build_reply .unparsed = .ok none ∧
    (sp ≠ 68 ∨ dp ≠ 67 → ∀ b, maybe_build_reply (.datagram sp dp b) = .ok none) ∧
    maybe_build_reply (.datagram 68 67 .absent) = .ok none ∧
    (m.opcode ≠ 1 → maybe_build_reply (.datagram 68 67 (.decoded m)) = .ok none) ∧
    (m.opcode = 1 →
      maybe_build_reply (.datagram 68 67 (.decoded m)) = .ok (some (buildReply m)) ∧
      (buildReply m).opcode = 2 ∧
      (buildReply m).yiaddr = [10, 1, 10, 2] ∧
      (buildReply m).siaddr = [10, 1, 10, 1] ∧
      (buildReply m).giaddr = [0, 0, 0, 0] ∧
      (buildReply m).secs = 0 ∧
      (buildReply m).flags = 0 ∧
      DhcpOption.subnetMask [255, 255, 255, 0] ∈ (buildReply m).opts ∧
      DhcpOption.router [[10, 1, 10, 1]] ∈ (buildReply m).opts ∧
      DhcpOption.leaseTime 269352960 ∈ (buildReply m).opts ∧
      DhcpOption.serverId [10, 1, 10, 1] ∈ (buildReply m).opts ∧
      (getMessageType m.opts = some 1 →
        getMessageType (buildReply m).opts = some 2) ∧
      (getMessageType m.opts = some 3 →
        getMessageType (buildReply m).opts = some 5) ∧
      (getMessageType m.opts ≠ some 1 → getMessageType m.opts ≠ some 3 →
        getMessageType (buildReply m).opts = none)) := by
  refine ⟨rfl, ?_, rfl, ?_, ?_⟩
  · intro h b
    simp only [maybe_build_reply]
    rw [if_pos h]
  · intro hne
    simp only [maybe_build_reply]
    rw [if_neg (by simp)]
    rw [if_pos hne]
  · intro hop
    have hreply : maybe_build_reply (.datagram 68 67 (.decoded m)) =
        .ok (some (buildReply m)) := by
      simp only [maybe_build_reply]
      rw [if_neg (by simp)]
      rw [if_neg (by simp [hop])]
    refine ⟨hreply, rfl, rfl, rfl, rfl, rfl, rfl, ?_, ?_, ?_, ?_, ?_, ?_, ?_⟩
    · simp [buildReply]
    · simp [buildReply]
    · simp [buildReply]
    · simp [buildReply]
    · intro hmt
      show getMessageType ((match getMessageType m.opts with
        | some 1 => [DhcpOption.messageType 2]
        | some 3 => [DhcpOption.messageType 5]
        | _ => ([] : List DhcpOption)) ++ _) = some 2
      rw [hmt]
      rfl
    · intro hmt
      show getMessageType ((match getMessageType m.opts with
        | some 1 => [DhcpOption.messageType 2]
        | some 3 => [DhcpOption.messageType 5]
        | _ => ([] : List DhcpOption)) ++ _) = some 5
      rw [hmt]
      rfl
    · intro h1 h3
      show getMessageType ((match getMessageType m.opts with
        | some 1 => [DhcpOption.messageType 2]
        | some 3 => [DhcpOption.messageType 5]
        | _ => ([] : List DhcpOption)) ++ _) = none
      rw [msgTypeArm_other _ h1 h3]
      rfl

/-- A concrete DISCOVER request, for the C7 witness. -/
def c7Msg : DhcpMessage :=
  { opcode := 1, xid := 0xDEADBEEF, secs := 9, flags := 1,
    ciaddr := [0, 0, 0, 0], yiaddr := [0, 0, 0, 0], siaddr := [0, 0, 0, 0],
    giaddr := [0, 0, 0, 0], chaddr := [1, 2, 3, 4, 5, 6],
    opts := [DhcpOption.messageType 1] }

/-- Witness for the amended C7 theorem: the DISCOVER with xid `0xDEADBEEF`
receives an OFFER reply with the advertised addresses. -/
theorem c7_witness :
    maybe_build_reply (.datagram 68 67 (.decoded c7Msg)) =
      .ok (some (buildReply c7Msg)) ∧
    (buildReply c7Msg).yiaddr = [10, 1, 10, 2] ∧
    getMessageType (buildReply c7Msg).opts = some 2 := by
  have h := (c7_dhcp_responder c7Msg 68 67).2.2.2.2 rfl
  exact ⟨h.1, h.2.2.1, h.2.2.2.2.2.2.2.2.2.2.2.1 rfl⟩

/-! ## MASS fragment sizing — `src/device/xiaomi/components/mass.rs`

`send_file_for_owner` computes `mass_fragment_max_len =
expected_slice_length.saturating_sub(1 + 1 + 2 + 2)` and
`total_parts = (len as f32 / frag as f32).ceil() as u16`.  The `f32`
arithmetic is modelled exactly (IEEE-754 binary32, round to nearest, ties
to even) by dyadics `m · 2^e` with normalized 24-bit significand; the
final `as u16` saturates.  `f32::ceil` of the quotient is exact here
(its ceiling is representable for the magnitudes a `u16` cast can keep). -/

/-- Function `mass_fragment_max_len`: `expected_slice_length − 6`
(saturating, as ℕ subtraction is). -/
def mass_fragment_max_len (expected_slice_length : ℕ) : ℕ :=
  expected_slice_length - (1 + 1 + 2 + 2)

/-- The `i`-th (0-based) fragment slice
`payload[i·frag .. min(i·frag + frag, len)]` of the send loop. -/
def massFragment (payload : List ℕ) (frag i : ℕ) : List ℕ :=
  (payload.drop (i * frag)).take (min (i * frag + frag) payload.length - i * frag)

/-- An IEEE-754 binary32 magnitude as a dyadic `m · 2^e` with `m = 0` or
`2^23 ≤ m < 2^24`. -/
structure F32 where
  m : ℕ
  e : ℤ
deriving DecidableEq, Repr

/-- Round `num / den` to the nearest integer, ties to even. -/
def rhe (num den : ℕ) : ℕ :=
  if 2 * (num % den) < den then num / den
  else if den < 2 * (num % den) then num / den + 1
  else if num / den % 2 = 0 then num / den else num / den + 1

/-- Renormalize a rounded significand that overflowed to `2^24`. -/
def f32normUp (m : ℕ) (e : ℤ) : F32 :=
  if m = 2 ^ 24 then ⟨2 ^ 23, e + 1⟩ else ⟨m, e⟩

/-- Floor of the base-2 logarithm, by fuel (64 covers every `usize`). -/
def floorLog2 : ℕ → ℕ → ℕ
  | 0, _ => 0
  | fuel + 1, n => if 2 ≤ n then floorLog2 fuel (n / 2) + 1 else 0

/-- `n as f32`: exact below `2^24`, rounded to 24 significant bits above. -/
def f32ofNat (n : ℕ) : F32 :=
  if n = 0 then ⟨0, 0⟩
  else
    if floorLog2 64 n ≤ 23 then
      ⟨n * 2 ^ (23 - floorLog2 64 n), (floorLog2 64 n : ℤ) - 23⟩
    else
      f32normUp (rhe n (2 ^ (floorLog2 64 n - 23))) ((floorLog2 64 n : ℤ) - 23)

/-- Binary32 division of normalized magnitudes: scale the significand
quotient into `[2^23, 2^24)` and round to nearest, ties to even. -/
def f32div (a b : F32) : F32 :=
  if a.m = 0 ∨ b.m = 0 then ⟨0, 0⟩
  else if b.m ≤ a.m then
    f32normUp (rhe (a.m * 2 ^ 23) b.m) (a.e - b.e - 23)
  else
    f32normUp (rhe (a.m * 2 ^ 24) b.m) (a.e - b.e - 24)

/-- The ceiling of a nonnegative dyadic, as a natural number. -/
def f32ceil_toNat (a : F32) : ℕ :=
  if 0 ≤ a.e then a.m * 2 ^ a.e.toNat
  else (a.m + 2 ^ (-a.e).toNat - 1) / 2 ^ (-a.e).toNat

/-- Rust `as u16` on a nonnegative float: saturate at `u16::MAX`. -/
def to_u16_sat (n : ℕ) : ℕ := min n 65535

/-- Modelled from the source line
`(mass_inner_payload_with_crc32.len() as f32 / mass_fragment_max_len as f32).ceil() as u16`. -/
def codeTotalParts (len frag : ℕ) : ℕ :=
  to_u16_sat (f32ceil_toNat (f32div (f32ofNat len) (f32ofNat frag)))

/--
Claim C6, settled as a code bug: the per-fragment slice length never
exceeds `expected_slice_length − 6` (here `1006 − 6 = 1000`, first
conjunct and the universal bound), but `total_parts` is computed through
`f32`, which has only 24 bits of precision: for an inner-with-CRC payload
of `40 000 001` bytes and fragment size `1000`, the code computes
`total_parts = 40000` whereas the exact ceiling — which the code's own
comment (`向上取整`, round up) and the spec intend — is `40001`, so the
final fragment would never be accounted for.
-/
theorem c6_total_parts_f32_bug :
    mass_fragment_max_len 1006 = 1000 ∧
    codeTotalParts 40000001 1000 = 40000 ∧
    (40000001 + 1000 - 1) / 1000 = 40001 ∧
    (∀ (payload : List ℕ) (frag i : ℕ),
      (massFragment payload frag i).length ≤ frag) := by
  refine ⟨by decide, by decide, by decide, ?_⟩
  intro payload frag i
  unfold massFragment
  rw [List.length_take, List.length_drop]
  omega

end AstroCore
